import Mathlib

/-! Smartnode bootstrap: layered configuration and service provider.

A shallow embedding of `shared/services/config/config.go` (configuration
documents, `loadFile`, `mergeConfigs`) and of `shared/services/provider.go`
(`ProviderOpts`, `Provider`, `NewProvider`), followed by the properties proved
about them.

Go slices are embedded as lists (a nil slice and an empty slice are both the
empty list: `len`, `range` and `omitempty` do not tell them apart), Go strings
as `String`, and a pointer that may be nil as an `Option`.
-/

namespace Smartnode

/-! ## Configuration documents (`config.go`, lines 13 to 51) -/

/-- The Go struct `clientParam`. -/
structure clientParam where
  Name : String
  Env : String
  Required : Bool
  Regex : String
  deriving DecidableEq, Repr

/-- The Go struct `clientOption`. -/
structure clientOption where
  ID : String
  Name : String
  Image : String
  Params : List clientParam
  deriving DecidableEq, Repr

/-- The Go struct `userParam`. -/
structure userParam where
  Env : String
  Value : String
  deriving DecidableEq, Repr

/-- The anonymous struct of the field `Client` of `chain`. -/
structure chainClient where
  Options : List clientOption
  Selected : String
  Params : List userParam
  deriving DecidableEq, Repr

/-- The Go struct `chain`. -/
structure chain where
  Provider : String
  Client : chainClient
  deriving DecidableEq, Repr

/-- The anonymous struct of the field `Rocketpool` of `RocketPoolConfig`. -/
structure RocketpoolSection where
  StorageAddress : String
  deriving DecidableEq, Repr

/-- The anonymous struct of the field `Smartnode` of `RocketPoolConfig`. -/
structure SmartnodeSection where
  PasswordPath : String
  NodeKeychainPath : String
  ValidatorKeychainPath : String
  deriving DecidableEq, Repr

/-- The anonymous struct of the field `Chains` of `RocketPoolConfig`. -/
structure ChainsSection where
  Eth1 : chain
  Eth2 : chain
  deriving DecidableEq, Repr

/-- The Go struct `RocketPoolConfig`. -/
structure RocketPoolConfig where
  Rocketpool : RocketpoolSection
  Smartnode : SmartnodeSection
  Chains : ChainsSection
  deriving DecidableEq, Repr

/-- The zero value of `chain`. -/
def emptyChain : chain :=
  { Provider := "", Client := { Options := [], Selected := "", Params := [] } }

/-- The zero value `RocketPoolConfig{}` (also what `var merged RocketPoolConfig` declares). -/
def emptyConfig : RocketPoolConfig :=
  { Rocketpool := { StorageAddress := "" }
    Smartnode := { PasswordPath := "", NodeKeychainPath := "", ValidatorKeychainPath := "" }
    Chains := { Eth1 := emptyChain, Eth2 := emptyChain } }

/-! ## The library call `mergo.Merge(dst, src)` with no options

`mergeConfigs` calls `mergo.Merge(&merged, configs[i])` of the library
`github.com/imdario/mergo` without any option (no override, no slice
appending, no deep copy of slices). The library walks the two structs field by
field (`deepMerge`): a struct field with exported fields is descended into; a
string field and a slice field of `dst` are set to the field of `src` exactly
when the field of `src` is not empty and the field of `dst` is empty
(`isEmptyValue`: length zero); a non-empty slice of `dst` is therefore kept
whole and its elements are never visited.
-/

/-- The library test `isEmptyValue` on a string: its length is zero. -/
def isEmptyString (s : String) : Bool := s.length == 0

/-- The library test `isEmptyValue` on a slice: its length is zero. -/
def isEmptySlice {α : Type} (l : List α) : Bool := l.length == 0

/-- One string field under `deepMerge` without options. -/
def mergeString (dst src : String) : String :=
  if !isEmptyString src && isEmptyString dst then src else dst

/-- One slice field under `deepMerge` without options. -/
def mergeSlice {α : Type} (dst src : List α) : List α :=
  if !isEmptySlice src && isEmptySlice dst then src else dst

/-- The fields of the `Client` struct of a chain under `deepMerge`, in declaration order. -/
def mergeChainClient (dst src : chainClient) : chainClient :=
  { Options := mergeSlice dst.Options src.Options
    Selected := mergeString dst.Selected src.Selected
    Params := mergeSlice dst.Params src.Params }

/-- The fields of a `chain` under `deepMerge`. -/
def mergeChain (dst src : chain) : chain :=
  { Provider := mergeString dst.Provider src.Provider
    Client := mergeChainClient dst.Client src.Client }

/-- The call `mergo.Merge(&dst, &src)` on two `RocketPoolConfig` values: the new value of `dst`. -/
def Merge (dst src : RocketPoolConfig) : RocketPoolConfig :=
  { Rocketpool :=
      { StorageAddress := mergeString dst.Rocketpool.StorageAddress src.Rocketpool.StorageAddress }
    Smartnode :=
      { PasswordPath := mergeString dst.Smartnode.PasswordPath src.Smartnode.PasswordPath
        NodeKeychainPath :=
          mergeString dst.Smartnode.NodeKeychainPath src.Smartnode.NodeKeychainPath
        ValidatorKeychainPath :=
          mergeString dst.Smartnode.ValidatorKeychainPath src.Smartnode.ValidatorKeychainPath }
    Chains :=
      { Eth1 := mergeChain dst.Chains.Eth1 src.Chains.Eth1
        Eth2 := mergeChain dst.Chains.Eth2 src.Chains.Eth2 } }

/-! ## `mergeConfigs` (`config.go`, lines 130 to 137) -/

/-- The loop `for i := len(configs) - 1; i >= 0; i--` of `mergeConfigs`: the first argument
after `configs` is `i + 1`, the second the variable `merged`. -/
def mergeLoop (configs : List RocketPoolConfig) : Nat → RocketPoolConfig → RocketPoolConfig
  | 0, merged => merged
  | i + 1, merged =>
    match configs.get? i with
    | some c => mergeLoop configs i (Merge merged c)
    | none => mergeLoop configs i merged

/-- The Go function `mergeConfigs(configs ...*RocketPoolConfig)`. -/
def mergeConfigs (configs : List RocketPoolConfig) : RocketPoolConfig :=
  mergeLoop configs configs.length emptyConfig

/-- The value the precedence rule asks for: the invocation value when set, else the user
value when set, else the global value. -/
def firstSet (invocation user global : String) : String :=
  if invocation ≠ "" then invocation else if user ≠ "" then user else global

/-- The list the code keeps: the invocation list when not empty, else the user list when
not empty, else the global list. -/
def firstSetList {α : Type} (invocation user global : List α) : List α :=
  if !invocation.isEmpty then invocation else if !user.isEmpty then user else global

/-- Precedence for one scalar leaf `f` of the three documents, with the consequence that
a set value of any layer leaves the merged value set. -/
def PrecedenceHolds (f : RocketPoolConfig → String) (g u i : RocketPoolConfig) : Prop :=
  f (mergeConfigs [g, u, i]) = firstSet (f i) (f u) (f g) ∧
    ((f g ≠ "" ∨ f u ≠ "" ∨ f i ≠ "") → f (mergeConfigs [g, u, i]) ≠ "")

/-! ## `loadFile` (`config.go`, lines 95 to 114)

The two library calls are parameters: `readFile path` is the result of
`ioutil.ReadFile(path)` (the bytes, or the read error), and `unmarshal bytes` is what
`yaml.Unmarshal(bytes, &config)` leaves in a zero `config` together with the error it
returns (`none` for a nil error).
-/

/-- An error made by `fmt.Errorf` with the verb `%w`: its message, and the error it wraps
(named by its message). -/
structure WrappedError where
  message : String
  wrapped : String
  deriving DecidableEq, Repr

/-- The Go function `loadFile(path)`: the pair it returns, `none` standing for a nil error. -/
def loadFile (readFile : String → Except String (List Nat))
    (unmarshal : List Nat → RocketPoolConfig × Option String) (path : String) :
    RocketPoolConfig × Option WrappedError :=
  match readFile path with
  | .error _ => (emptyConfig, none)
  | .ok bytes =>
    match unmarshal bytes with
    | (_, some err) =>
      (emptyConfig, some
        { message := "Could not parse config file at " ++ path ++ ": " ++ err, wrapped := err })
    | (config, none) => (config, none)

/-! ## Provider options (`provider.go`, lines 28 to 92) -/

/-- The Go struct `ProviderOpts`. -/
structure ProviderOpts where
  DB : Bool
  PM : Bool
  AM : Bool
  KM : Bool
  Client : Bool
  ClientConnection : Bool
  ClientSync : Bool
  CM : Bool
  RocketStorage : Bool
  NodeContractAddress : Bool
  NodeContract : Bool
  Publisher : Bool
  Beacon : Bool
  Docker : Bool
  LoadContracts : List String
  LoadAbis : List String
  deriving DecidableEq, Repr

/-- The zero value `ProviderOpts{}`. -/
def noOpts : ProviderOpts :=
  { DB := false, PM := false, AM := false, KM := false, Client := false,
    ClientConnection := false, ClientSync := false, CM := false, RocketStorage := false,
    NodeContractAddress := false, NodeContract := false, Publisher := false, Beacon := false,
    Docker := false, LoadContracts := [], LoadAbis := [] }

/-- The block `// Process options` of `NewProvider` (lines 70 to 92): seven conditionals,
run once from top to bottom, each on the options as the conditionals before it left them. -/
def processOptions (opts : ProviderOpts) : ProviderOpts :=
  let opts := if opts.Beacon then { opts with Publisher := true } else opts
  let opts := if opts.NodeContract then { opts with NodeContractAddress := true } else opts
  let opts := if opts.NodeContractAddress then { opts with AM := true, CM := true } else opts
  let opts :=
    if opts.LoadContracts.length + opts.LoadAbis.length > 0 then { opts with CM := true }
    else opts
  let opts := if opts.CM then { opts with Client := true } else opts
  let opts := if opts.ClientSync then { opts with Client := true } else opts
  let opts := if opts.AM || opts.KM then { opts with PM := true } else opts
  opts

/-- The seven implication rules, as a property of one option set. -/
def Closed (o : ProviderOpts) : Prop :=
  (o.Beacon = true → o.Publisher = true) ∧
  (o.NodeContract = true → o.NodeContractAddress = true) ∧
  (o.NodeContractAddress = true → o.AM = true ∧ o.CM = true) ∧
  (o.LoadContracts ≠ [] ∨ o.LoadAbis ≠ [] → o.CM = true) ∧
  (o.CM = true → o.Client = true) ∧
  (o.ClientSync = true → o.Client = true) ∧
  (o.AM = true ∨ o.KM = true → o.PM = true)

/-! ### The rule table of the specification, applied to a fixed point

This part follows the words of the specification, not the code: a table of seven rules
(premise, required capabilities), applied in rounds until a round adds nothing. It is
what `processOptions` is compared with.
-/

/-- The fourteen capability flags. -/
inductive Capability where
  | DB | PM | AM | KM | Client | ClientConnection | ClientSync | CM | RocketStorage
  | NodeContractAddress | NodeContract | Publisher | Beacon | Docker
  deriving DecidableEq, Repr

/-- Whether a capability flag is set. -/
def ProviderOpts.has (o : ProviderOpts) : Capability → Bool
  | .DB => o.DB
  | .PM => o.PM
  | .AM => o.AM
  | .KM => o.KM
  | .Client => o.Client
  | .ClientConnection => o.ClientConnection
  | .ClientSync => o.ClientSync
  | .CM => o.CM
  | .RocketStorage => o.RocketStorage
  | .NodeContractAddress => o.NodeContractAddress
  | .NodeContract => o.NodeContract
  | .Publisher => o.Publisher
  | .Beacon => o.Beacon
  | .Docker => o.Docker

/-- The option set with one more capability flag set. -/
def ProviderOpts.add (o : ProviderOpts) : Capability → ProviderOpts
  | .DB => { o with DB := true }
  | .PM => { o with PM := true }
  | .AM => { o with AM := true }
  | .KM => { o with KM := true }
  | .Client => { o with Client := true }
  | .ClientConnection => { o with ClientConnection := true }
  | .ClientSync => { o with ClientSync := true }
  | .CM => { o with CM := true }
  | .RocketStorage => { o with RocketStorage := true }
  | .NodeContractAddress => { o with NodeContractAddress := true }
  | .NodeContract => { o with NodeContract := true }
  | .Publisher => { o with Publisher := true }
  | .Beacon => { o with Beacon := true }
  | .Docker => { o with Docker := true }

/-- One implication rule of the table: when the premise holds, the capabilities are required. -/
structure Rule where
  premise : ProviderOpts → Bool
  required : List Capability

/-- The rule table of the specification, rules 1 to 7. -/
def ruleTable : List Rule :=
  [ { premise := fun o => o.has .Beacon, required := [.Publisher] },
    { premise := fun o => o.has .NodeContract, required := [.NodeContractAddress] },
    { premise := fun o => o.has .NodeContractAddress, required := [.AM, .CM] },
    { premise := fun o => !o.LoadContracts.isEmpty || !o.LoadAbis.isEmpty, required := [.CM] },
    { premise := fun o => o.has .CM, required := [.Client] },
    { premise := fun o => o.has .ClientSync, required := [.Client] },
    { premise := fun o => o.has .AM || o.has .KM, required := [.PM] } ]

/-- One round over the table: every rule whose premise holds of the set `o` the round
starts from adds the capabilities it requires. -/
def applyRulesOnce (o : ProviderOpts) : ProviderOpts :=
  ruleTable.foldl
    (fun acc rule => if rule.premise o then rule.required.foldl ProviderOpts.add acc else acc) o

/-- Rounds until one adds nothing, at most `fuel` of them. -/
def applyRulesUntilStable : Nat → ProviderOpts → ProviderOpts
  | 0, o => o
  | fuel + 1, o =>
    let next := applyRulesOnce o
    if next = o then o else applyRulesUntilStable fuel next

/-- The expansion of the specification: rounds until stable. A round that changes the set
sets at least one of the fourteen flags and clears none, so fourteen rounds are enough. -/
def specClosure (o : ProviderOpts) : ProviderOpts :=
  applyRulesUntilStable 14 o

/-- Every flag set in `a` is set in `b`. -/
def FlagsSubset (a b : ProviderOpts) : Prop :=
  ∀ cap : Capability, a.has cap = true → b.has cap = true

/-! ## The service provider (`provider.go`, lines 24 to 62)

The subsystems are other packages; `NewProvider` only calls their constructors and
checks. A handle is embedded as a record of the arguments its constructor was given, a
field of `Provider` as an `Option` (`none` for a nil pointer).
-/

/-- The constant `DOCKER_API_VERSION`. -/
def DOCKER_API_VERSION : String := "1.39"

/-- The constant `common.AddressLength`. -/
def AddressLength : Nat := 20

/-- A value of `common.Address`, as the bytes that `Bytes()` returns. -/
structure Address where
  bytes : List Nat
  deriving DecidableEq, Repr

/-- The global string flags `NewProvider` reads through `c.GlobalString`. -/
structure Context where
  database : String
  password : String
  keychainPow : String
  keychainBeacon : String
  providerPow : String
  storageAddress : String
  providerBeacon : String
  deriving DecidableEq, Repr

/-- The handle `database.NewDatabase(path)` returns. -/
structure Database where
  path : String
  deriving DecidableEq, Repr

/-- The handle `passwords.NewPasswordManager(path)` returns. -/
structure PasswordManager where
  passwordPath : String
  deriving DecidableEq, Repr

/-- The handle `accounts.NewAccountManager(path, pm)` returns. -/
structure AccountManager where
  keychainPath : String
  pm : Option PasswordManager
  deriving DecidableEq, Repr

/-- The handle `validators.NewKeyManager(path, pm)` returns. -/
structure KeyManager where
  keychainPath : String
  pm : Option PasswordManager
  deriving DecidableEq, Repr

/-- The handle `ethclient.Dial(provider)` returns with a nil error. -/
structure EthClient where
  provider : String
  deriving DecidableEq, Repr

/-- The handle `rocketpool.NewContractManager(client, storageAddress)` returns with a nil
error. -/
structure ContractManager where
  client : Option EthClient
  storageAddress : String
  deriving DecidableEq, Repr

/-- The handle `p.CM.NewContract(address, name)` returns with a nil error. -/
structure BoundContract where
  address : Option Address
  name : String
  deriving DecidableEq, Repr

/-- The handle `messaging.NewPublisher()` returns. -/
structure Publisher where
  deriving DecidableEq, Repr

/-- The handle `beaconchain.NewClient(provider, publisher)` returns. -/
structure BeaconClient where
  provider : String
  publisher : Option Publisher
  deriving DecidableEq, Repr

/-- The handle `client.NewClientWithOpts(client.WithVersion(version))` returns with a nil
error. -/
structure DockerClient where
  version : String
  deriving DecidableEq, Repr

/-- The Go struct `Provider`; `{}` is the value of `&Provider{}`, every field nil. -/
structure Provider where
  DB : Option Database := none
  PM : Option PasswordManager := none
  AM : Option AccountManager := none
  KM : Option KeyManager := none
  Client : Option EthClient := none
  CM : Option ContractManager := none
  NodeContractAddress : Option Address := none
  NodeContract : Option BoundContract := none
  Publisher : Option Publisher := none
  Beacon : Option BeaconClient := none
  Docker : Option DockerClient := none
  deriving DecidableEq, Repr

/-- What the external collaborators do during one call of `NewProvider`. Each is called
at most once in a call, so one outcome each describes every behaviour; every call is
taken to return. An `Option String` is the error a call returns (`none` for nil). -/
structure World where
  /-- The result of `p.PM.PasswordExists()`. -/
  passwordExists : Bool
  /-- The result of `p.AM.NodeAccountExists()`. -/
  nodeAccountExists : Bool
  /-- The error of `ethclient.Dial`. -/
  dial : Option String
  /-- The error of `eth.WaitSync`. -/
  waitSync : Option String
  /-- The error of `rocketpool.NewContractManager`. -/
  newContractManager : Option String
  /-- The error of `p.CM.LoadContracts`. -/
  loadContracts : Option String
  /-- The error of `p.CM.LoadABIs`. -/
  loadABIs : Option String
  /-- Whether the signal of the ABI task is received before that of the contract task. -/
  abiSignalFirst : Bool
  /-- The call `getContract` on `rocketNodeAPI`: the address it writes, or its error. -/
  getContract : Except String Address
  /-- The error of `p.CM.NewContract`. -/
  newContract : Option String
  /-- The error of `client.NewClientWithOpts`. -/
  newDockerClient : Option String

/-- The fifteen blocks of `NewProvider` after the option processing, in source order. -/
inductive Stage where
  | database
  | passwordManager
  | accountManager
  | keyManager
  | ethClient
  | waitConnection
  | waitSync
  | contractManager
  | waitRocketStorage
  | loadResources
  | nodeContractAddress
  | nodeContract
  | publisher
  | beacon
  | docker
  deriving DecidableEq, Repr

/-- One call of `NewProvider` as seen from outside: the blocks that were entered, in
order, each with the provider `p` as it was on entry, and the pair returned (`.ok p` for
`return p, nil`, `.error msg` for `return nil, err`). -/
structure Run where
  trace : List (Stage × Provider)
  result : Except String Provider

/-- The stages of a run, in the order they were entered. -/
def Run.stages (r : Run) : List Stage := r.trace.map Prod.fst

/-- One block `if requested { body }` followed by the rest of the function: a block that
is not requested is skipped; a body that returns an error ends the function there. -/
def stage (s : Stage) (requested : Bool) (body : Provider → Except String Provider)
    (rest : Provider → Run) (p : Provider) : Run :=
  if requested then
    match body p with
    | .error err => { trace := [(s, p)], result := .error err }
    | .ok q => { trace := (s, p) :: (rest q).trace, result := (rest q).result }
  else rest p

/-- The receive loop `for received := 0; received < 2` of the loading block, on the two
signals in the order they are received (`none` for a success signal): an error signal
returns at once, two success signals end the loop. -/
def awaitLoading (first second : Option String) : Option String :=
  match first with
  | some err => some err
  | none =>
    match second with
    | some err => some err
    | none => none

/-- The block `// Load contracts & ABIs`: the two tasks and the receive loop. -/
def loadResources (w : World) : Option String :=
  if w.abiSignalFirst then awaitLoading w.loadABIs w.loadContracts
  else awaitLoading w.loadContracts w.loadABIs

/-- The Go function `NewProvider(c, opts)` (lines 68 to 246), run in the world `w`. -/
def NewProvider (w : World) (c : Context) (opts : ProviderOpts) : Run :=
  let opts := processOptions opts
  (stage .database opts.DB
    (fun p => .ok { p with DB := some { path := c.database } }) <|
  stage .passwordManager opts.PM
    (fun p =>
      let p := { p with PM := some { passwordPath := c.password } }
      if !w.passwordExists then
        .error "Node password is not set, please initialize with `rocketpool node init`"
      else .ok p) <|
  stage .accountManager opts.AM
    (fun p =>
      let p := { p with AM := some { keychainPath := c.keychainPow, pm := p.PM } }
      if !w.nodeAccountExists then
        .error "Node account does not exist, please initialize with `rocketpool node init`"
      else .ok p) <|
  stage .keyManager opts.KM
    (fun p => .ok { p with KM := some { keychainPath := c.keychainBeacon, pm := p.PM } }) <|
  stage .ethClient opts.Client
    (fun p =>
      match w.dial with
      | some err => .error ("Error connecting to ethereum node: " ++ err)
      | none => .ok { p with Client := some { provider := c.providerPow } }) <|
  stage .waitConnection opts.ClientConnection
    (fun p => .ok p) <|
  stage .waitSync opts.ClientSync
    (fun p =>
      match w.waitSync with
      | some err => .error err
      | none => .ok p) <|
  stage .contractManager opts.CM
    (fun p =>
      match w.newContractManager with
      | some err => .error err
      | none => .ok { p with CM := some { client := p.Client, storageAddress := c.storageAddress } }) <|
  stage .waitRocketStorage opts.RocketStorage
    (fun p => .ok p) <|
  stage .loadResources (decide (opts.LoadContracts.length + opts.LoadAbis.length > 0))
    (fun p =>
      match loadResources w with
      | some err => .error err
      | none => .ok p) <|
  stage .nodeContractAddress opts.NodeContractAddress
    (fun p =>
      match w.getContract with
      | .error err => .error ("Error checking node registration: " ++ err)
      | .ok nodeContractAddress =>
        if nodeContractAddress.bytes == List.replicate AddressLength 0 then
          .error
            "Node is not registered with Rocket Pool, please register with `rocketpool node register`"
        else .ok { p with NodeContractAddress := some nodeContractAddress }) <|
  stage .nodeContract opts.NodeContract
    (fun p =>
      match w.newContract with
      | some err => .error ("Error initialising node contract: " ++ err)
      | none =>
        .ok { p with
          NodeContract := some { address := p.NodeContractAddress, name := "rocketNodeContract" } }) <|
  stage .publisher opts.Publisher
    (fun p => .ok { p with Publisher := some {} }) <|
  stage .beacon opts.Beacon
    (fun p =>
      .ok { p with Beacon := some { provider := c.providerBeacon, publisher := p.Publisher } }) <|
  stage .docker opts.Docker
    (fun p =>
      match w.newDockerClient with
      | some err => .error ("Error initialising docker client: " ++ err)
      | none => .ok { p with Docker := some { version := DOCKER_API_VERSION } }) <|
  fun p => { trace := [], result := .ok p }) {}

/-- The fixed stage order. -/
def stageOrder : List Stage :=
  [.database, .passwordManager, .accountManager, .keyManager, .ethClient, .waitConnection,
    .waitSync, .contractManager, .waitRocketStorage, .loadResources, .nodeContractAddress,
    .nodeContract, .publisher, .beacon, .docker]

/-- Whether a stage belongs to an option set: its flag is set (for resource loading, one
of the two load lists has an entry). -/
def ProviderOpts.wants (o : ProviderOpts) : Stage → Bool
  | .database => o.DB
  | .passwordManager => o.PM
  | .accountManager => o.AM
  | .keyManager => o.KM
  | .ethClient => o.Client
  | .waitConnection => o.ClientConnection
  | .waitSync => o.ClientSync
  | .contractManager => o.CM
  | .waitRocketStorage => o.RocketStorage
  | .loadResources => !o.LoadContracts.isEmpty || !o.LoadAbis.isEmpty
  | .nodeContractAddress => o.NodeContractAddress
  | .nodeContract => o.NodeContract
  | .publisher => o.Publisher
  | .beacon => o.Beacon
  | .docker => o.Docker

/-- The error with which a stage fails in the world `w`, `none` when it does not fail:
the `return nil, err` statements of each block. The loading stage fails when one of the
two loads fails, with the error of the failing load, and with the error received first
when both fail. -/
def stageError (w : World) : Stage → Option String
  | .database => none
  | .passwordManager =>
    if w.passwordExists then none
    else some "Node password is not set, please initialize with `rocketpool node init`"
  | .accountManager =>
    if w.nodeAccountExists then none
    else some "Node account does not exist, please initialize with `rocketpool node init`"
  | .keyManager => none
  | .ethClient => w.dial.map (fun err => "Error connecting to ethereum node: " ++ err)
  | .waitConnection => none
  | .waitSync => w.waitSync
  | .contractManager => w.newContractManager
  | .waitRocketStorage => none
  | .loadResources =>
    match w.loadContracts, w.loadABIs with
    | none, none => none
    | some err, none => some err
    | none, some err => some err
    | some errContracts, some errAbis =>
      some (if w.abiSignalFirst then errAbis else errContracts)
  | .nodeContractAddress =>
    match w.getContract with
    | .error err => some ("Error checking node registration: " ++ err)
    | .ok addr =>
      if addr.bytes == List.replicate AddressLength 0 then
        some "Node is not registered with Rocket Pool, please register with `rocketpool node register`"
      else none
  | .nodeContract => w.newContract.map (fun err => "Error initialising node contract: " ++ err)
  | .publisher => none
  | .beacon => none
  | .docker => w.newDockerClient.map (fun err => "Error initialising docker client: " ++ err)

/-- The stages of a plan that run when each runs in turn until one fails: the plan up to
and including its first failing stage, the whole plan when none fails. -/
def throughFirstFailure (w : World) : List Stage → List Stage
  | [] => []
  | s :: rest =>
    match stageError w s with
    | some _ => [s]
    | none => s :: throughFirstFailure w rest

/-- The error of the first failing stage of a plan, `none` when no stage fails. -/
def firstFailure (w : World) : List Stage → Option String
  | [] => none
  | s :: rest =>
    match stageError w s with
    | some err => some err
    | none => firstFailure w rest

/-- The error a run returned, `none` when it returned a provider. -/
def Run.error (r : Run) : Option String :=
  match r.result with
  | .error err => some err
  | .ok _ => none

/-- A run follows a plan: its stages are the plan through the first failing stage, and
it returns the error of that stage, or a provider when no stage of the plan fails. -/
def Follows (w : World) (plan : List Stage) (r : Run) : Prop :=
  r.stages = throughFirstFailure w plan ∧ r.error = firstFailure w plan

/-- The body of a block agrees with `stageError`: it returns the error of the stage when
the stage fails in `w`, and a provider when it does not. -/
def BodyAgrees (w : World) (s : Stage) (body : Provider → Except String Provider) : Prop :=
  ∀ p, match stageError w s with
    | some err => body p = .error err
    | none => ∃ q, body p = .ok q

/-- A context with every flag given. -/
def sampleContext : Context :=
  { database := "/.rocketpool/db", password := "/.rocketpool/password",
    keychainPow := "/.rocketpool/accounts", keychainBeacon := "/.rocketpool/validators",
    providerPow := "http://eth1:8545", storageAddress := "0x01",
    providerBeacon := "http://eth2:5052" }

/-- A world in which nothing is provisioned yet: no password, no node account; every
other call succeeds and `getContract` returns the address `0x00..01`. -/
def freshWorld : World :=
  { passwordExists := false, nodeAccountExists := false, dial := none, waitSync := none,
    newContractManager := none, loadContracts := none, loadABIs := none,
    abiSignalFirst := false,
    getContract := .ok { bytes := List.replicate 19 0 ++ [1] },
    newContract := none, newDockerClient := none }

/-- The world `freshWorld` once a password has been set: still no node account. -/
def passwordOnlyWorld : World :=
  { freshWorld with passwordExists := true }

/-- The provider as it is after the first `k` blocks of `NewProvider` when each block
requested among them has succeeded, for the processed options `e`: block `j` has set its
field when `j ≤ k` and its flag is set; every other field is still nil. -/
def builtAfter (w : World) (c : Context) (e : ProviderOpts) (k : Nat) : Provider :=
  let pm : Option PasswordManager :=
    if 2 ≤ k ∧ e.PM = true then some { passwordPath := c.password } else none
  let client : Option EthClient :=
    if 5 ≤ k ∧ e.Client = true then some { provider := c.providerPow } else none
  let nca : Option Address :=
    if 11 ≤ k ∧ e.NodeContractAddress = true then
      match w.getContract with
      | .ok a => some a
      | .error _ => none
    else none
  let publisher : Option Publisher :=
    if 13 ≤ k ∧ e.Publisher = true then some {} else none
  { DB := if 1 ≤ k ∧ e.DB = true then some { path := c.database } else none
    PM := pm
    AM := if 3 ≤ k ∧ e.AM = true then some { keychainPath := c.keychainPow, pm := pm } else none
    KM := if 4 ≤ k ∧ e.KM = true then some { keychainPath := c.keychainBeacon, pm := pm } else none
    Client := client
    CM :=
      if 8 ≤ k ∧ e.CM = true then some { client := client, storageAddress := c.storageAddress }
      else none
    NodeContractAddress := nca
    NodeContract :=
      if 12 ≤ k ∧ e.NodeContract = true then some { address := nca, name := "rocketNodeContract" }
      else none
    Publisher := publisher
    Beacon :=
      if 14 ≤ k ∧ e.Beacon = true then
        some { provider := c.providerBeacon, publisher := publisher }
      else none
    Docker :=
      if 15 ≤ k ∧ e.Docker = true then some { version := DOCKER_API_VERSION } else none }

/-- A world in which everything is provisioned and every call succeeds; `getContract`
returns the address `0x00..01`. -/
def readyWorld : World :=
  { freshWorld with passwordExists := true, nodeAccountExists := true }

/-- The world `readyWorld`, except that `getContract` returns the all-zero address. -/
def unregisteredWorld : World :=
  { readyWorld with getContract := .ok { bytes := List.replicate AddressLength 0 } }

/-- The world `readyWorld`, except that the call `getContract` returns an error. -/
def unreachableWorld : World :=
  { readyWorld with getContract := .error "connection refused" }

/-- The world `readyWorld`, except that the ABI load fails and its signal is received
before the success signal of the contract load. -/
def abiFailsWorld : World :=
  { readyWorld with loadABIs := some "ABI load failed", abiSignalFirst := true }

/-- A request for the contract manager with one contract and one ABI to load. -/
def loadRequest : ProviderOpts :=
  { noOpts with CM := true, LoadContracts := ["rocketNodeAPI"], LoadAbis := ["rocketNodeContract"] }

/-- A global document whose only content is one eth1 parameter override, for `ETH_A`. -/
def listGlobal : RocketPoolConfig :=
  { emptyConfig with
    Chains :=
      { Eth1 :=
          { Provider := ""
            Client := { Options := [], Selected := "", Params := [{ Env := "ETH_A", Value := "1" }] } }
        Eth2 := emptyChain } }

/-- A user document whose only content is one eth1 parameter override, for `ETH_B`. -/
def listUser : RocketPoolConfig :=
  { emptyConfig with
    Chains :=
      { Eth1 :=
          { Provider := ""
            Client := { Options := [], Selected := "", Params := [{ Env := "ETH_B", Value := "2" }] } }
        Eth2 := emptyChain } }

/-! ## Theorems: configuration merge -/

theorem isEmptyString_iff (s : String) : isEmptyString s = true ↔ s = "" := by
  unfold isEmptyString
  constructor
  · intro h
    cases s with
    | mk data =>
      have h0 : data.length = 0 := by
        have h2 : (String.mk data).length = data.length := rfl
        rw [h2] at h
        exact of_decide_eq_true h
      have h1 : data = [] := List.length_eq_zero.mp h0
      subst h1
      rfl
  · intro h
    subst h
    rfl

theorem mergeString_eq (dst src : String) :
    mergeString dst src = if dst = "" then src else dst := by
  unfold mergeString
  by_cases hd : dst = ""
  · by_cases hs : src = ""
    · simp [hd, hs, (isEmptyString_iff "").mpr rfl]
    · have : isEmptyString src = false := by
        cases h : isEmptyString src
        · rfl
        · exact absurd ((isEmptyString_iff src).mp h) hs
      simp [hd, this, (isEmptyString_iff "").mpr rfl]
  · have : isEmptyString dst = false := by
      cases h : isEmptyString dst
      · rfl
      · exact absurd ((isEmptyString_iff dst).mp h) hd
    simp [hd, this]

theorem mergeSlice_eq {α : Type} (dst src : List α) :
    mergeSlice dst src = if dst.isEmpty then src else dst := by
  unfold mergeSlice isEmptySlice
  cases dst <;> cases src <;> simp

theorem mergeConfigs_three (g u i : RocketPoolConfig) :
    mergeConfigs [g, u, i] = Merge (Merge (Merge emptyConfig i) u) g := by
  rfl

theorem mergeString_chain (a b c : String) :
    mergeString (mergeString (mergeString "" a) b) c = firstSet a b c := by
  simp only [mergeString_eq, firstSet]
  by_cases ha : a = "" <;> by_cases hb : b = "" <;> simp [ha, hb]

theorem mergeSlice_chain {α : Type} (a b c : List α) :
    mergeSlice (mergeSlice (mergeSlice [] a) b) c = firstSetList a b c := by
  simp only [mergeSlice_eq, firstSetList]
  cases a <;> cases b <;> simp

theorem firstSet_ne_empty (a b c : String) (h : c ≠ "" ∨ b ≠ "" ∨ a ≠ "") :
    firstSet a b c ≠ "" := by
  unfold firstSet
  by_cases ha : a = "" <;> by_cases hb : b = "" <;> simp_all

theorem precedence_of_chain (f : RocketPoolConfig → String) (g u i : RocketPoolConfig)
    (h : f (mergeConfigs [g, u, i]) = mergeString (mergeString (mergeString "" (f i)) (f u)) (f g)) :
    PrecedenceHolds f g u i := by
  unfold PrecedenceHolds
  rw [h, mergeString_chain]
  exact ⟨rfl, firstSet_ne_empty _ _ _⟩

theorem mergeString_empty_left (s : String) : mergeString "" s = s := by
  simp [mergeString_eq]

theorem mergeString_empty_right (s : String) : mergeString s "" = s := by
  rw [mergeString_eq]
  by_cases h : s = "" <;> simp [h]

theorem mergeSlice_nil_left {α : Type} (l : List α) : mergeSlice [] l = l := by
  simp [mergeSlice_eq]

theorem mergeSlice_nil_right {α : Type} (l : List α) : mergeSlice l [] = l := by
  rw [mergeSlice_eq]
  cases l <;> simp

theorem Merge_empty_left (d : RocketPoolConfig) : Merge emptyConfig d = d := by
  simp [Merge, mergeChain, mergeChainClient, emptyConfig, emptyChain, mergeString_empty_left,
    mergeSlice_nil_left]

theorem Merge_empty_right (d : RocketPoolConfig) : Merge d emptyConfig = d := by
  simp [Merge, mergeChain, mergeChainClient, emptyConfig, emptyChain, mergeString_empty_right,
    mergeSlice_nil_right]

/-- C1. Merge precedence: for all three documents (global, user, invocation), each of the
eight scalar leaves of `mergeConfigs(global, user, invocation)` is the invocation value
when that is not empty, else the user value when that is not empty, else the global
value; and a leaf set in any of the three documents is set in the merged document. -/
theorem mergeConfigs_precedence (g u i : RocketPoolConfig) :
    PrecedenceHolds (fun c => c.Rocketpool.StorageAddress) g u i ∧
    PrecedenceHolds (fun c => c.Smartnode.PasswordPath) g u i ∧
    PrecedenceHolds (fun c => c.Smartnode.NodeKeychainPath) g u i ∧
    PrecedenceHolds (fun c => c.Smartnode.ValidatorKeychainPath) g u i ∧
    PrecedenceHolds (fun c => c.Chains.Eth1.Provider) g u i ∧
    PrecedenceHolds (fun c => c.Chains.Eth2.Provider) g u i ∧
    PrecedenceHolds (fun c => c.Chains.Eth1.Client.Selected) g u i ∧
    PrecedenceHolds (fun c => c.Chains.Eth2.Client.Selected) g u i := by
  refine ⟨?_, ?_, ?_, ?_, ?_, ?_, ?_, ?_⟩ <;> exact precedence_of_chain _ g u i rfl

/-- C2, as the code has it: the two lists of a chain are leaves of the merge. For all
three documents, the merged parameter-override list and the merged client-options list
of each chain are one whole list, that of the highest-precedence document whose list is
not empty; no entry of another document is added to it. -/
theorem mergeConfigs_lists_taken_whole (g u i : RocketPoolConfig) :
    (mergeConfigs [g, u, i]).Chains.Eth1.Client.Params =
        firstSetList i.Chains.Eth1.Client.Params u.Chains.Eth1.Client.Params
          g.Chains.Eth1.Client.Params ∧
    (mergeConfigs [g, u, i]).Chains.Eth2.Client.Params =
        firstSetList i.Chains.Eth2.Client.Params u.Chains.Eth2.Client.Params
          g.Chains.Eth2.Client.Params ∧
    (mergeConfigs [g, u, i]).Chains.Eth1.Client.Options =
        firstSetList i.Chains.Eth1.Client.Options u.Chains.Eth1.Client.Options
          g.Chains.Eth1.Client.Options ∧
    (mergeConfigs [g, u, i]).Chains.Eth2.Client.Options =
        firstSetList i.Chains.Eth2.Client.Options u.Chains.Eth2.Client.Options
          g.Chains.Eth2.Client.Options := by
  refine ⟨?_, ?_, ?_, ?_⟩ <;> exact mergeSlice_chain _ _ _

/-- C2, as stated, fails: the global and the user document both set a non-empty eth1
parameter-override list, the override for `ETH_A` is in the global list only and no entry
of the user list has that env name, yet the merged list does not hold it (the merged list
is the user list). -/
theorem mergeConfigs_lists_not_deep_merged :
    listGlobal.Chains.Eth1.Client.Params ≠ [] ∧
    listUser.Chains.Eth1.Client.Params ≠ [] ∧
    (⟨"ETH_A", "1"⟩ : userParam) ∈ listGlobal.Chains.Eth1.Client.Params ∧
    (∀ q ∈ listUser.Chains.Eth1.Client.Params, q.Env ≠ "ETH_A") ∧
    (⟨"ETH_A", "1"⟩ : userParam) ∉
      (mergeConfigs [listGlobal, listUser, emptyConfig]).Chains.Eth1.Client.Params ∧
    (mergeConfigs [listGlobal, listUser, emptyConfig]).Chains.Eth1.Client.Params =
      listUser.Chains.Eth1.Client.Params := by
  decide

/-- C3. Merge totality and identity: `mergeConfigs` of three empty documents is the empty
document, and a document merged with two empty documents, in any of the three positions,
is that document. -/
theorem mergeConfigs_identity (d : RocketPoolConfig) :
    mergeConfigs [emptyConfig, emptyConfig, emptyConfig] = emptyConfig ∧
    mergeConfigs [d, emptyConfig, emptyConfig] = d ∧
    mergeConfigs [emptyConfig, d, emptyConfig] = d ∧
    mergeConfigs [emptyConfig, emptyConfig, d] = d := by
  simp only [mergeConfigs_three, Merge_empty_left, Merge_empty_right, and_self]

/-! ## Theorems: option processing -/

/-- Whether one of the two load lists has an entry. -/
theorem loads_pos_iff (lc la : List String) :
    lc.length + la.length > 0 ↔ (lc ≠ [] ∨ la ≠ []) := by
  cases lc <;> cases la <;> simp

theorem processOptions_eq (o : ProviderOpts) :
    processOptions o =
      { o with
        Publisher := o.Publisher || o.Beacon
        NodeContractAddress := o.NodeContractAddress || o.NodeContract
        AM := o.AM || o.NodeContractAddress || o.NodeContract
        CM := o.CM || o.NodeContractAddress || o.NodeContract ||
          decide (o.LoadContracts.length + o.LoadAbis.length > 0)
        Client := o.Client || o.ClientSync || o.CM || o.NodeContractAddress || o.NodeContract ||
          decide (o.LoadContracts.length + o.LoadAbis.length > 0)
        PM := o.PM || o.KM || o.AM || o.NodeContractAddress || o.NodeContract } := by
  obtain ⟨db, pm, am, km, cl, cc, cs, cm, rs, nca, nc, pb, bc, dk, lc, la⟩ := o
  by_cases h : lc.length + la.length > 0 <;>
    cases bc <;> cases nc <;> cases nca <;> cases cm <;> cases cs <;> cases am <;> cases km <;>
    simp [processOptions, h]

theorem loads_isEmpty_eq (lc la : List String) :
    (!lc.isEmpty || !la.isEmpty) = decide (lc.length + la.length > 0) := by
  cases lc <;> cases la <;> simp

theorem applyRulesOnce_eq (o : ProviderOpts) :
    applyRulesOnce o =
      { o with
        Publisher := o.Beacon || o.Publisher
        NodeContractAddress := o.NodeContract || o.NodeContractAddress
        AM := o.NodeContractAddress || o.AM
        CM := (!o.LoadContracts.isEmpty || !o.LoadAbis.isEmpty) || o.NodeContractAddress || o.CM
        Client := o.CM || o.ClientSync || o.Client
        PM := o.AM || o.KM || o.PM } := by
  obtain ⟨db, pm, am, km, cl, cc, cs, cm, rs, nca, nc, pb, bc, dk, lc, la⟩ := o
  cases lc <;> cases la <;>
    cases bc <;> cases nc <;> cases nca <;> cases cm <;> cases cs <;> cases am <;> cases km <;>
    rfl

theorem applyRulesOnce_thrice (o : ProviderOpts) :
    applyRulesOnce (applyRulesOnce (applyRulesOnce o)) = processOptions o := by
  obtain ⟨db, pm, am, km, cl, cc, cs, cm, rs, nca, nc, pb, bc, dk, lc, la⟩ := o
  simp only [applyRulesOnce_eq, processOptions_eq, loads_isEmpty_eq]
  generalize decide (lc.length + la.length > 0) = L
  cases bc <;> cases nc <;> cases nca <;> cases cm <;> cases cs <;> cases am <;> cases km <;>
    cases L <;> simp

theorem applyRulesOnce_processOptions (o : ProviderOpts) :
    applyRulesOnce (processOptions o) = processOptions o := by
  obtain ⟨db, pm, am, km, cl, cc, cs, cm, rs, nca, nc, pb, bc, dk, lc, la⟩ := o
  simp only [applyRulesOnce_eq, processOptions_eq, loads_isEmpty_eq]
  generalize decide (lc.length + la.length > 0) = L
  cases bc <;> cases nc <;> cases nca <;> cases cm <;> cases cs <;> cases am <;> cases km <;>
    cases L <;> simp

theorem applyRulesUntilStable_fixed (n : Nat) (o : ProviderOpts) (h : applyRulesOnce o = o) :
    applyRulesUntilStable n o = o := by
  cases n with
  | zero => rfl
  | succ n => simp [applyRulesUntilStable, h]

theorem applyRulesUntilStable_three (n : Nat) (o : ProviderOpts) :
    applyRulesUntilStable (n + 3) o = processOptions o := by
  have h3 := applyRulesOnce_thrice o
  have h4 := applyRulesOnce_processOptions o
  by_cases h1 : applyRulesOnce o = o
  · rw [applyRulesUntilStable_fixed _ _ h1]
    rw [h1, h1, h1] at h3
    exact h3
  · have e1 : applyRulesUntilStable (n + 3) o = applyRulesUntilStable (n + 2) (applyRulesOnce o) := by
      simp [applyRulesUntilStable, h1]
    rw [e1]
    by_cases h2 : applyRulesOnce (applyRulesOnce o) = applyRulesOnce o
    · rw [applyRulesUntilStable_fixed _ _ h2]
      rw [h2, h2] at h3
      exact h3
    · have e2 : applyRulesUntilStable (n + 2) (applyRulesOnce o) =
          applyRulesUntilStable (n + 1) (applyRulesOnce (applyRulesOnce o)) := by
        simp [applyRulesUntilStable, h2]
      rw [e2]
      by_cases h5 : applyRulesOnce (applyRulesOnce (applyRulesOnce o)) =
          applyRulesOnce (applyRulesOnce o)
      · rw [applyRulesUntilStable_fixed _ _ h5]
        rw [h5] at h3
        exact h3
      · have e3 : applyRulesUntilStable (n + 1) (applyRulesOnce (applyRulesOnce o)) =
            applyRulesUntilStable n (applyRulesOnce (applyRulesOnce (applyRulesOnce o))) := by
          simp [applyRulesUntilStable, h5]
        rw [e3, h3]
        exact applyRulesUntilStable_fixed _ _ h4

theorem processOptions_closed_aux (o : ProviderOpts) : Closed (processOptions o) := by
  obtain ⟨db, pm, am, km, cl, cc, cs, cm, rs, nca, nc, pb, bc, dk, lc, la⟩ := o
  simp only [Closed, processOptions_eq, ← loads_pos_iff, Bool.or_eq_true, decide_eq_true_eq]
  tauto

theorem processOptions_least_aux (r s : ProviderOpts) (hsub : FlagsSubset r s)
    (hlc : s.LoadContracts = r.LoadContracts) (hla : s.LoadAbis = r.LoadAbis)
    (hs : Closed s) : FlagsSubset (processOptions r) s := by
  obtain ⟨h1, h2, h3, h4, h5, h6, h7⟩ := hs
  have hh : r.LoadContracts.length + r.LoadAbis.length > 0 → s.CM = true := by
    intro h
    apply h4
    rw [hlc, hla]
    exact (loads_pos_iff _ _).mp h
  have g := fun cap => hsub cap
  have gDB := g .DB
  have gPM := g .PM
  have gAM := g .AM
  have gKM := g .KM
  have gCl := g .Client
  have gCC := g .ClientConnection
  have gCS := g .ClientSync
  have gCM := g .CM
  have gRS := g .RocketStorage
  have gNCA := g .NodeContractAddress
  have gNC := g .NodeContract
  have gPb := g .Publisher
  have gBc := g .Beacon
  have gDk := g .Docker
  simp only [ProviderOpts.has] at gDB gPM gAM gKM gCl gCC gCS gCM gRS gNCA gNC gPb gBc gDk
  have sNCA : r.NodeContract = true → s.NodeContractAddress = true := fun h => h2 (gNC h)
  have sAM : r.NodeContractAddress = true ∨ r.NodeContract = true → s.AM = true := by
    rintro (h | h)
    · exact (h3 (gNCA h)).1
    · exact (h3 (sNCA h)).1
  have sCM : r.NodeContractAddress = true ∨ r.NodeContract = true → s.CM = true := by
    rintro (h | h)
    · exact (h3 (gNCA h)).2
    · exact (h3 (sNCA h)).2
  intro cap
  rw [processOptions_eq]
  cases cap <;> simp only [ProviderOpts.has, Bool.or_eq_true, decide_eq_true_eq]
  · exact gDB
  · rintro ((((h | h) | h) | h) | h)
    · exact gPM h
    · exact h7 (Or.inr (gKM h))
    · exact h7 (Or.inl (gAM h))
    · exact h7 (Or.inl (sAM (Or.inl h)))
    · exact h7 (Or.inl (sAM (Or.inr h)))
  · rintro ((h | h) | h)
    · exact gAM h
    · exact sAM (Or.inl h)
    · exact sAM (Or.inr h)
  · exact gKM
  · rintro (((((h | h) | h) | h) | h) | h)
    · exact gCl h
    · exact h6 (gCS h)
    · exact h5 (gCM h)
    · exact h5 (sCM (Or.inl h))
    · exact h5 (sCM (Or.inr h))
    · exact h5 (hh h)
  · exact gCC
  · exact gCS
  · rintro (((h | h) | h) | h)
    · exact gCM h
    · exact sCM (Or.inl h)
    · exact sCM (Or.inr h)
    · exact hh h
  · exact gRS
  · rintro (h | h)
    · exact gNCA h
    · exact sNCA h
  · exact gNC
  · rintro (h | h)
    · exact gPb h
    · exact h1 (gBc h)
  · exact gBc
  · exact gDk

theorem or_eq_right_iff_imp (a b : Bool) : (a || b) = b ↔ (a = true → b = true) := by
  cases a <;> cases b <;> simp

theorem closed_iff_stable (s : ProviderOpts) : Closed s ↔ applyRulesOnce s = s := by
  obtain ⟨db, pm, am, km, cl, cc, cs, cm, rs, nca, nc, pb, bc, dk, lc, la⟩ := s
  simp only [Closed, applyRulesOnce_eq, ProviderOpts.mk.injEq, true_and, and_true,
    loads_isEmpty_eq, ← loads_pos_iff, or_eq_right_iff_imp, Bool.or_eq_true, decide_eq_true_eq]
  constructor
  · rintro ⟨h1, h2, h3, h4, h5, h6, h7⟩
    refine ⟨h7, fun h => (h3 h).1, ?_, ?_, h2, h1⟩
    · rintro (h | h)
      · exact h5 h
      · exact h6 h
    · rintro (h | h)
      · exact h4 h
      · exact (h3 h).2
  · rintro ⟨h7, h3a, h56, h43, h2, h1⟩
    exact ⟨h1, h2, fun h => ⟨h3a h, h43 (Or.inr h)⟩, fun h => h43 (Or.inl h),
      fun h => h56 (Or.inl h), fun h => h56 (Or.inr h), h7⟩

/-- C4. Closure soundness: for every request, the options left by the option-processing
block of `NewProvider` satisfy the seven implication rules together. Requesting Beacon
alone sets Publisher; requesting NodeContract alone sets NodeContractAddress, AM and CM. -/
theorem processOptions_sound (r : ProviderOpts) :
    Closed (processOptions r) ∧
    (processOptions { noOpts with Beacon := true }).Publisher = true ∧
    (processOptions { noOpts with NodeContract := true }).NodeContractAddress = true ∧
    (processOptions { noOpts with NodeContract := true }).AM = true ∧
    (processOptions { noOpts with NodeContract := true }).CM = true :=
  ⟨processOptions_closed_aux r, rfl, rfl, rfl, rfl⟩

/-- C5. Closure idempotence: for every request, running the option-processing block on
its own output changes nothing, the two load lists included. -/
theorem processOptions_idempotent (r : ProviderOpts) :
    processOptions (processOptions r) = processOptions r := by
  have h := applyRulesOnce_thrice (processOptions r)
  rw [applyRulesOnce_processOptions, applyRulesOnce_processOptions,
    applyRulesOnce_processOptions] at h
  exact h.symm

/-- C6. Single pass equals the fixed point: for every request, the one pass of
`processOptions` gives the set reached by applying the rule table in rounds until a round
adds nothing (and that set is stable under one more round); it keeps every requested
flag and both load lists, is closed under the seven rules, and is contained in every
closed set that contains the request and has the same load lists (a set is closed exactly
when a round of the rule table leaves it as it is). Requesting only DB and Docker adds
nothing. -/
theorem processOptions_eq_specClosure (r : ProviderOpts) :
    processOptions r = specClosure r ∧
    applyRulesOnce (specClosure r) = specClosure r ∧
    FlagsSubset r (processOptions r) ∧
    (processOptions r).LoadContracts = r.LoadContracts ∧
    (processOptions r).LoadAbis = r.LoadAbis ∧
    Closed (processOptions r) ∧
    (∀ s : ProviderOpts, FlagsSubset r s → s.LoadContracts = r.LoadContracts →
      s.LoadAbis = r.LoadAbis → Closed s → FlagsSubset (processOptions r) s) ∧
    (∀ s : ProviderOpts, Closed s ↔ applyRulesOnce s = s) ∧
    processOptions { noOpts with DB := true, Docker := true } =
      { noOpts with DB := true, Docker := true } := by
  have hspec : specClosure r = processOptions r := applyRulesUntilStable_three 11 r
  refine ⟨hspec.symm, ?_, ?_, ?_, ?_, processOptions_closed_aux r, ?_, closed_iff_stable, rfl⟩
  · rw [hspec]
    exact applyRulesOnce_processOptions r
  · intro cap
    rw [processOptions_eq]
    cases cap <;> simp only [ProviderOpts.has, Bool.or_eq_true] <;> intro h <;> simp [h]
  · rw [processOptions_eq]
  · rw [processOptions_eq]
  · intro s h1 h2 h3 h4
    exact processOptions_least_aux r s h1 h2 h3 h4

/-! ## Theorems: `loadFile` -/

/-- C7. Config loader errors: for every path and every behaviour of the file read and of
the parser, `loadFile` returns an error exactly when the bytes were read and the parser
rejects them; the error message is then `Could not parse config file at <path>: <parser
error>` and the error wraps the parser error, next to the empty document. A file that
cannot be read gives the empty document and no error; bytes that parse give the parsed
document and no error. -/
theorem loadFile_errors (readFile : String → Except String (List Nat))
    (unmarshal : List Nat → RocketPoolConfig × Option String) (path : String) :
    ((loadFile readFile unmarshal path).2 ≠ none ↔
      ∃ bytes, readFile path = .ok bytes ∧ (unmarshal bytes).2 ≠ none) ∧
    (∀ bytes err, readFile path = .ok bytes → (unmarshal bytes).2 = some err →
      loadFile readFile unmarshal path =
        (emptyConfig, some
          { message := "Could not parse config file at " ++ path ++ ": " ++ err
            wrapped := err })) ∧
    (∀ e, readFile path = .error e → loadFile readFile unmarshal path = (emptyConfig, none)) ∧
    (∀ bytes, readFile path = .ok bytes → (unmarshal bytes).2 = none →
      loadFile readFile unmarshal path = ((unmarshal bytes).1, none)) := by
  unfold loadFile
  cases hr : readFile path with
  | error e => simp
  | ok bytes =>
    rcases hu : unmarshal bytes with ⟨cfg, _ | err⟩
    · refine ⟨by simp [hu], ?_, by simp, ?_⟩
      · intro b e hb he
        cases hb
        rw [hu] at he
        cases he
      · intro b hb _
        cases hb
        simp [hu]
    · refine ⟨by simp [hu], ?_, by simp, ?_⟩
      · intro b e hb he
        cases hb
        rw [hu] at he
        cases he
        simp [hu]
      · intro b hb he
        cases hb
        rw [hu] at he
        cases he

/-! ## Theorems: the stages of `NewProvider` -/

theorem stageError_loadResources (w : World) :
    stageError w .loadResources = loadResources w := by
  unfold stageError loadResources awaitLoading
  cases w.loadContracts <;> cases w.loadABIs <;> cases w.abiSignalFirst <;> rfl

theorem stageError_loadResources_none (w : World) :
    stageError w .loadResources = none ↔ w.loadContracts = none ∧ w.loadABIs = none := by
  unfold stageError
  cases w.loadContracts <;> cases w.loadABIs <;> simp

theorem stage_follows (w : World) (s : Stage) (requested : Bool) (f : Stage → Bool)
    (body : Provider → Except String Provider) (rest : Provider → Run) (plan : List Stage)
    (hreq : requested = f s) (hbody : BodyAgrees w s body)
    (hrest : ∀ q, Follows w (plan.filter f) (rest q)) (p : Provider) :
    Follows w ((s :: plan).filter f) (stage s requested body rest p) := by
  rw [List.filter_cons, ← hreq]
  cases requested with
  | false => simpa [stage] using hrest p
  | true =>
    have hb := hbody p
    cases hs : stageError w s with
    | some err =>
      rw [hs] at hb
      simp [stage, hb, Follows, Run.stages, Run.error, throughFirstFailure, firstFailure, hs]
    | none =>
      rw [hs] at hb
      obtain ⟨q, hq⟩ := hb
      have hr := hrest q
      simp only [Follows, Run.stages, Run.error] at hr
      simp [stage, hq, Follows, Run.stages, Run.error, throughFirstFailure, firstFailure, hs, hr]

theorem bodyAgrees_ok (w : World) (s : Stage) (g : Provider → Provider)
    (h : stageError w s = none) : BodyAgrees w s (fun p => .ok (g p)) := by
  intro p
  rw [h]
  exact ⟨g p, rfl⟩

theorem NewProvider_follows (w : World) (c : Context) (opts : ProviderOpts) :
    Follows w (stageOrder.filter (processOptions opts).wants) (NewProvider w c opts) := by
  unfold NewProvider stageOrder
  refine stage_follows w _ _ _ _ _ _ rfl ?_ (fun _ => ?_) _
  · exact bodyAgrees_ok w _ _ rfl
  refine stage_follows w _ _ _ _ _ _ rfl ?_ (fun _ => ?_) _
  · intro p
    cases h : w.passwordExists <;> simp [stageError, h]
  refine stage_follows w _ _ _ _ _ _ rfl ?_ (fun _ => ?_) _
  · intro p
    cases h : w.nodeAccountExists <;> simp [stageError, h]
  refine stage_follows w _ _ _ _ _ _ rfl ?_ (fun _ => ?_) _
  · exact bodyAgrees_ok w _ _ rfl
  refine stage_follows w _ _ _ _ _ _ rfl ?_ (fun _ => ?_) _
  · intro p
    cases h : w.dial <;> simp [stageError, h]
  refine stage_follows w _ _ _ _ _ _ rfl ?_ (fun _ => ?_) _
  · exact bodyAgrees_ok w _ _ rfl
  refine stage_follows w _ _ _ _ _ _ rfl ?_ (fun _ => ?_) _
  · intro p
    cases h : w.waitSync <;> simp [stageError, h]
  refine stage_follows w _ _ _ _ _ _ rfl ?_ (fun _ => ?_) _
  · intro p
    cases h : w.newContractManager <;> simp [stageError, h]
  refine stage_follows w _ _ _ _ _ _ rfl ?_ (fun _ => ?_) _
  · exact bodyAgrees_ok w _ _ rfl
  refine stage_follows w _ _ _ _ _ _ (loads_isEmpty_eq _ _).symm ?_ (fun _ => ?_) _
  · intro p
    have hs := stageError_loadResources w
    cases h : loadResources w <;> simp [hs, h]
  refine stage_follows w _ _ _ _ _ _ rfl ?_ (fun _ => ?_) _
  · intro p
    cases h : w.getContract with
    | error e => simp [stageError, h]
    | ok a =>
      by_cases hz : (a.bytes == List.replicate AddressLength 0) = true <;>
        simp [stageError, h, hz]
  refine stage_follows w _ _ _ _ _ _ rfl ?_ (fun _ => ?_) _
  · intro p
    cases h : w.newContract <;> simp [stageError, h]
  refine stage_follows w _ _ _ _ _ _ rfl ?_ (fun _ => ?_) _
  · exact bodyAgrees_ok w _ _ rfl
  refine stage_follows w _ _ _ _ _ _ rfl ?_ (fun _ => ?_) _
  · exact bodyAgrees_ok w _ _ rfl
  refine stage_follows w _ _ _ _ _ _ rfl ?_ (fun _ => ?_) _
  · intro p
    cases h : w.newDockerClient <;> simp [stageError, h]
  simp [Follows, Run.stages, Run.error, throughFirstFailure, firstFailure]

theorem throughFirstFailure_take (w : World) (plan : List Stage) :
    ∃ k, throughFirstFailure w plan = plan.take k := by
  induction plan with
  | nil => exact ⟨0, rfl⟩
  | cons s rest ih =>
    cases hs : stageError w s with
    | some err => exact ⟨1, by simp [throughFirstFailure, hs]⟩
    | none =>
      obtain ⟨k, hk⟩ := ih
      exact ⟨k + 1, by simp [throughFirstFailure, hs, hk]⟩

theorem firstFailure_none_iff (w : World) (plan : List Stage) :
    firstFailure w plan = none ↔ ∀ s ∈ plan, stageError w s = none := by
  induction plan with
  | nil => simp [firstFailure]
  | cons s rest ih =>
    cases hs : stageError w s with
    | some err => simp [firstFailure, hs]
    | none => simp [firstFailure, hs, ih]

theorem throughFirstFailure_of_none (w : World) (plan : List Stage)
    (h : firstFailure w plan = none) : throughFirstFailure w plan = plan := by
  induction plan with
  | nil => rfl
  | cons s rest ih =>
    cases hs : stageError w s with
    | some err => simp [firstFailure, hs] at h
    | none =>
      simp only [firstFailure, hs] at h
      simp [throughFirstFailure, hs, ih h]

theorem firstFailure_some (w : World) (plan : List Stage) (err : String)
    (h : firstFailure w plan = some err) :
    ∃ s, (throughFirstFailure w plan).getLast? = some s ∧ stageError w s = some err ∧
      ∀ t ∈ (throughFirstFailure w plan).dropLast, stageError w t = none := by
  induction plan with
  | nil => simp [firstFailure] at h
  | cons s rest ih =>
    cases hs : stageError w s with
    | some e0 =>
      simp only [firstFailure, hs, Option.some.injEq] at h
      subst h
      exact ⟨s, by simp [throughFirstFailure, hs], hs, by simp [throughFirstFailure, hs]⟩
    | none =>
      simp only [firstFailure, hs] at h
      obtain ⟨s1, h1, h2, h3⟩ := ih h
      have hne : throughFirstFailure w rest ≠ [] := by
        intro hnil
        rw [hnil] at h1
        simp at h1
      refine ⟨s1, ?_, h2, ?_⟩
      · simp [throughFirstFailure, hs, List.getLast?_cons, h1]
      · intro t ht
        simp only [throughFirstFailure, hs, List.dropLast_cons_of_ne_nil hne,
          List.mem_cons] at ht
        rcases ht with rfl | ht
        · exact hs
        · exact h3 t ht

theorem Run.error_eq_some_iff (r : Run) (err : String) :
    r.error = some err ↔ r.result = .error err := by
  unfold Run.error
  cases r.result <;> simp

theorem Run.error_eq_none_iff (r : Run) : r.error = none ↔ ∃ p, r.result = .ok p := by
  unfold Run.error
  cases r.result <;> simp

/-- C8. Ordered short-circuit, all or nothing: for every world, context and request, the
stages `NewProvider` enters are the fixed stage order restricted to the expanded option
set, cut after its first failing stage (so they are a leading part of it); `NewProvider`
returns an error exactly when a stage of that plan fails, the error is that of the first
failing stage, which is the last stage entered, and no stage entered before it fails; it
returns a provider exactly when no stage of the plan fails, and then every stage of the
plan was entered. In particular, when a load list is not empty, a provider is returned
only if the contract load and the ABI load both succeed, and a failing load makes
`NewProvider` return an error. -/
theorem NewProvider_ordered_short_circuit (w : World) (c : Context) (opts : ProviderOpts) :
    (NewProvider w c opts).stages =
      throughFirstFailure w (stageOrder.filter (processOptions opts).wants) ∧
    (∃ k, (NewProvider w c opts).stages =
      (stageOrder.filter (processOptions opts).wants).take k) ∧
    (∀ err, (NewProvider w c opts).result = .error err ↔
      firstFailure w (stageOrder.filter (processOptions opts).wants) = some err) ∧
    (∀ err, (NewProvider w c opts).result = .error err →
      ∃ s, (NewProvider w c opts).stages.getLast? = some s ∧ stageError w s = some err ∧
        ∀ t ∈ (NewProvider w c opts).stages.dropLast, stageError w t = none) ∧
    ((∃ p, (NewProvider w c opts).result = .ok p) ↔
      ∀ s ∈ stageOrder.filter (processOptions opts).wants, stageError w s = none) ∧
    ((∃ p, (NewProvider w c opts).result = .ok p) →
      (NewProvider w c opts).stages = stageOrder.filter (processOptions opts).wants) ∧
    ((∃ p, (NewProvider w c opts).result = .ok p) →
      (opts.LoadContracts ≠ [] ∨ opts.LoadAbis ≠ []) →
      w.loadContracts = none ∧ w.loadABIs = none) ∧
    ((opts.LoadContracts ≠ [] ∨ opts.LoadAbis ≠ []) →
      (w.loadContracts ≠ none ∨ w.loadABIs ≠ none) →
      ∃ err, (NewProvider w c opts).result = .error err) := by
  obtain ⟨hst, herr⟩ := NewProvider_follows w c opts
  have hload : (opts.LoadContracts ≠ [] ∨ opts.LoadAbis ≠ []) →
      Stage.loadResources ∈ stageOrder.filter (processOptions opts).wants := by
    intro hne
    rw [List.mem_filter]
    refine ⟨by simp [stageOrder], ?_⟩
    rw [processOptions_eq]
    simp only [ProviderOpts.wants]
    rcases hne with hne | hne
    · cases hl : opts.LoadContracts with
      | nil => exact absurd hl hne
      | cons x xs => rfl
    · cases hl : opts.LoadAbis with
      | nil => exact absurd hl hne
      | cons x xs => simp
  have hok : (∃ p, (NewProvider w c opts).result = .ok p) →
      (opts.LoadContracts ≠ [] ∨ opts.LoadAbis ≠ []) →
      w.loadContracts = none ∧ w.loadABIs = none := by
    intro h hne
    rw [← Run.error_eq_none_iff, herr] at h
    exact (stageError_loadResources_none w).mp
      ((firstFailure_none_iff w _).mp h _ (hload hne))
  refine ⟨hst, ?_, ?_, ?_, ?_, ?_, hok, ?_⟩
  rotate_left 5
  · intro hne hfail
    cases hres : (NewProvider w c opts).result with
    | error err => exact ⟨err, rfl⟩
    | ok P =>
      obtain ⟨h1, h2⟩ := hok ⟨P, hres⟩ hne
      rcases hfail with hfail | hfail
      · exact absurd h1 hfail
      · exact absurd h2 hfail
  · rw [hst]
    exact throughFirstFailure_take w _
  · intro err
    rw [← Run.error_eq_some_iff, herr]
  · intro err h
    rw [← Run.error_eq_some_iff, herr] at h
    rw [hst]
    exact firstFailure_some w _ err h
  · rw [← Run.error_eq_none_iff, herr]
    exact firstFailure_none_iff w _
  · intro h
    rw [← Run.error_eq_none_iff, herr] at h
    rw [hst]
    exact throughFirstFailure_of_none w _ h

theorem through_cons_skip (w : World) (f : Stage → Bool) (s : Stage) (l : List Stage)
    (h : f s = false) :
    throughFirstFailure w ((s :: l).filter f) = throughFirstFailure w (l.filter f) ∧
    firstFailure w ((s :: l).filter f) = firstFailure w (l.filter f) := by
  simp [List.filter_cons, h]

theorem through_cons_pass (w : World) (f : Stage → Bool) (s : Stage) (l : List Stage)
    (h : f s = true) (hs : stageError w s = none) :
    throughFirstFailure w ((s :: l).filter f) = s :: throughFirstFailure w (l.filter f) ∧
    firstFailure w ((s :: l).filter f) = firstFailure w (l.filter f) := by
  simp [List.filter_cons, h, throughFirstFailure, firstFailure, hs]

theorem through_cons_fail (w : World) (f : Stage → Bool) (s : Stage) (l : List Stage)
    (err : String) (h : f s = true) (hs : stageError w s = some err) :
    throughFirstFailure w ((s :: l).filter f) = [s] ∧
    firstFailure w ((s :: l).filter f) = some err := by
  simp [List.filter_cons, h, throughFirstFailure, firstFailure, hs]

theorem processOptions_DB (opts : ProviderOpts) : (processOptions opts).DB = opts.DB := by
  rw [processOptions_eq]

/-- C10. Unprovisioned password: for every request whose expanded set contains the
password manager, in a world where no password is set, `NewProvider` returns the error
`Node password is not set` and enters the password manager stage last, after the database
stage alone (when that is requested): no account manager, key manager or later stage is
entered. A request for the account manager or the key manager has the password manager in
its expanded set even when PM itself is not requested. -/
theorem NewProvider_password_not_set (w : World) (c : Context) (opts : ProviderOpts)
    (hPM : (processOptions opts).PM = true) (hpw : w.passwordExists = false) :
    (NewProvider w c opts).result =
      .error "Node password is not set, please initialize with `rocketpool node init`" ∧
    (NewProvider w c opts).stages =
      (if opts.DB = true then [Stage.database] else []) ++ [Stage.passwordManager] ∧
    (∀ o : ProviderOpts, o.AM = true ∨ o.KM = true → (processOptions o).PM = true) := by
  obtain ⟨hst, herr⟩ := NewProvider_follows w c opts
  have hfail : stageError w .passwordManager =
      some "Node password is not set, please initialize with `rocketpool node init`" := by
    simp [stageError, hpw]
  have h2 := through_cons_fail w (processOptions opts).wants .passwordManager
    (stageOrder.drop 2) _ hPM hfail
  refine ⟨?_, ?_, ?_⟩
  · rw [← Run.error_eq_some_iff, herr]
    cases hDB : opts.DB with
    | false =>
      have h1 := through_cons_skip w (processOptions opts).wants .database
        (stageOrder.drop 1) ((processOptions_DB opts).trans hDB)
      exact h1.2.trans h2.2
    | true =>
      have h1 := through_cons_pass w (processOptions opts).wants .database
        (stageOrder.drop 1) ((processOptions_DB opts).trans hDB) rfl
      exact h1.2.trans h2.2
  · rw [hst]
    cases hDB : opts.DB with
    | false =>
      have h1 := through_cons_skip w (processOptions opts).wants .database
        (stageOrder.drop 1) ((processOptions_DB opts).trans hDB)
      exact h1.1.trans h2.1
    | true =>
      have h1 := through_cons_pass w (processOptions opts).wants .database
        (stageOrder.drop 1) ((processOptions_DB opts).trans hDB) rfl
      exact h1.1.trans (congrArg (List.cons Stage.database) h2.1)
  · intro o h
    rw [processOptions_eq]
    simp only [Bool.or_eq_true]
    tauto

/-- C10 at a concrete input: the key manager alone is requested and no password is set. -/
theorem NewProvider_password_not_set_witness :
    (processOptions { noOpts with KM := true }).PM = true ∧
    freshWorld.passwordExists = false ∧
    (NewProvider freshWorld sampleContext { noOpts with KM := true }).result =
      .error "Node password is not set, please initialize with `rocketpool node init`" ∧
    (NewProvider freshWorld sampleContext { noOpts with KM := true }).stages =
      [Stage.passwordManager] :=
  ⟨rfl, rfl,
    (NewProvider_password_not_set freshWorld sampleContext { noOpts with KM := true }
      rfl rfl).1,
    (NewProvider_password_not_set freshWorld sampleContext { noOpts with KM := true }
      rfl rfl).2.1⟩

/-- C9. Unprovisioned account: for every request whose expanded set contains the account
manager, in a world where a password is set and no node account exists, `NewProvider`
returns the error `Node account does not exist` and enters the account manager stage
last, after the database stage (when requested) and the password manager stage: no key
manager, RPC client, loading or later stage is entered. The account manager is in the
expanded set exactly when AM, NodeContractAddress or NodeContract is requested. -/
theorem NewProvider_account_missing (w : World) (c : Context) (opts : ProviderOpts)
    (hAM : (processOptions opts).AM = true) (hpw : w.passwordExists = true)
    (hacc : w.nodeAccountExists = false) :
    (NewProvider w c opts).result =
      .error "Node account does not exist, please initialize with `rocketpool node init`" ∧
    (NewProvider w c opts).stages =
      (if opts.DB = true then [Stage.database] else []) ++
        [Stage.passwordManager, Stage.accountManager] ∧
    (∀ o : ProviderOpts, (processOptions o).AM = true ↔
      (o.AM = true ∨ o.NodeContractAddress = true ∨ o.NodeContract = true)) := by
  obtain ⟨hst, herr⟩ := NewProvider_follows w c opts
  have hPM : (processOptions opts).PM = true :=
    (processOptions_closed_aux opts).2.2.2.2.2.2 (Or.inl hAM)
  have hpass : stageError w .passwordManager = none := by
    simp [stageError, hpw]
  have hfail : stageError w .accountManager =
      some "Node account does not exist, please initialize with `rocketpool node init`" := by
    simp [stageError, hacc]
  have h2 := through_cons_pass w (processOptions opts).wants .passwordManager
    (stageOrder.drop 2) hPM hpass
  have h3 := through_cons_fail w (processOptions opts).wants .accountManager
    (stageOrder.drop 3) _ hAM hfail
  refine ⟨?_, ?_, ?_⟩
  · rw [← Run.error_eq_some_iff, herr]
    cases hDB : opts.DB with
    | false =>
      have h1 := through_cons_skip w (processOptions opts).wants .database
        (stageOrder.drop 1) ((processOptions_DB opts).trans hDB)
      exact h1.2.trans (h2.2.trans h3.2)
    | true =>
      have h1 := through_cons_pass w (processOptions opts).wants .database
        (stageOrder.drop 1) ((processOptions_DB opts).trans hDB) rfl
      exact h1.2.trans (h2.2.trans h3.2)
  · rw [hst]
    cases hDB : opts.DB with
    | false =>
      have h1 := through_cons_skip w (processOptions opts).wants .database
        (stageOrder.drop 1) ((processOptions_DB opts).trans hDB)
      exact h1.1.trans (h2.1.trans (congrArg (List.cons Stage.passwordManager) h3.1))
    | true =>
      have h1 := through_cons_pass w (processOptions opts).wants .database
        (stageOrder.drop 1) ((processOptions_DB opts).trans hDB) rfl
      exact h1.1.trans (congrArg (List.cons Stage.database)
        (h2.1.trans (congrArg (List.cons Stage.passwordManager) h3.1)))
  · intro o
    rw [processOptions_eq]
    simp only [Bool.or_eq_true]
    tauto

/-- C9 at a concrete input: the node contract alone is requested, a password is set and
no node account exists. -/
theorem NewProvider_account_missing_witness :
    (processOptions { noOpts with NodeContract := true }).AM = true ∧
    passwordOnlyWorld.passwordExists = true ∧
    passwordOnlyWorld.nodeAccountExists = false ∧
    (NewProvider passwordOnlyWorld sampleContext { noOpts with NodeContract := true }).result =
      .error "Node account does not exist, please initialize with `rocketpool node init`" ∧
    (NewProvider passwordOnlyWorld sampleContext { noOpts with NodeContract := true }).stages =
      [Stage.passwordManager, Stage.accountManager] :=
  ⟨rfl, rfl, rfl,
    (NewProvider_account_missing passwordOnlyWorld sampleContext
      { noOpts with NodeContract := true } rfl rfl rfl).1,
    (NewProvider_account_missing passwordOnlyWorld sampleContext
      { noOpts with NodeContract := true } rfl rfl rfl).2.1⟩

/-! ## Theorems: the provider returned by `NewProvider` -/

theorem stage_ok (s : Stage) (requested : Bool) (body : Provider → Except String Provider)
    (rest : Provider → Run) (p P : Provider)
    (h : (stage s requested body rest p).result = .ok P) :
    ∃ q, (rest q).result = .ok P ∧ (if requested = true then body p = .ok q else q = p) := by
  cases requested with
  | false => exact ⟨p, by simpa [stage] using h, by simp⟩
  | true =>
    cases hb : body p with
    | error err => simp [stage, hb] at h
    | ok q => exact ⟨q, by simpa [stage, hb] using h, by simp⟩

theorem NewProvider_bundle (w : World) (c : Context) (opts : ProviderOpts) (P : Provider)
    (h : (NewProvider w c opts).result = .ok P) :
    P = builtAfter w c (processOptions opts) 15 := by
  unfold NewProvider at h
  dsimp only at h
  generalize processOptions opts = e at h ⊢
  have h0 : ({} : Provider) = builtAfter w c e 0 := by simp [builtAfter]
  rw [h0] at h
  clear h0
  -- database
  obtain ⟨q, h, hq⟩ := stage_ok _ _ _ _ _ _ h
  have hq1 : q = builtAfter w c e 1 := by
    cases hr : e.DB <;> simp [hr] at hq <;> subst hq <;> simp [builtAfter, hr]
  subst hq1
  obtain ⟨q, h, hq⟩ := stage_ok _ _ _ _ _ _ h
  have hq2 : q = builtAfter w c e 2 := by
    cases hr : e.PM <;> cases hw : w.passwordExists <;> simp [hr, hw] at hq <;> subst hq <;>
      simp [builtAfter, hr]
  subst hq2
  obtain ⟨q, h, hq⟩ := stage_ok _ _ _ _ _ _ h
  have hq3 : q = builtAfter w c e 3 := by
    cases hr : e.AM <;> cases hw : w.nodeAccountExists <;> simp [hr, hw] at hq <;> subst hq <;>
      simp [builtAfter, hr]
  subst hq3
  obtain ⟨q, h, hq⟩ := stage_ok _ _ _ _ _ _ h
  have hq4 : q = builtAfter w c e 4 := by
    cases hr : e.KM <;> simp [hr] at hq <;> subst hq <;> simp [builtAfter, hr]
  subst hq4
  obtain ⟨q, h, hq⟩ := stage_ok _ _ _ _ _ _ h
  have hq5 : q = builtAfter w c e 5 := by
    cases hr : e.Client <;> cases hw : w.dial <;> simp [hr, hw] at hq <;> subst hq <;>
      simp [builtAfter, hr]
  subst hq5
  obtain ⟨q, h, hq⟩ := stage_ok _ _ _ _ _ _ h
  have hq6 : q = builtAfter w c e 6 := by
    cases hr : e.ClientConnection <;> simp [hr] at hq <;> subst hq <;> simp [builtAfter, hr]
  subst hq6
  obtain ⟨q, h, hq⟩ := stage_ok _ _ _ _ _ _ h
  have hq7 : q = builtAfter w c e 7 := by
    cases hr : e.ClientSync <;> cases hw : w.waitSync <;> simp [hr, hw] at hq <;> subst hq <;>
      simp [builtAfter, hr]
  subst hq7
  obtain ⟨q, h, hq⟩ := stage_ok _ _ _ _ _ _ h
  have hq8 : q = builtAfter w c e 8 := by
    cases hr : e.CM <;> cases hw : w.newContractManager <;> simp [hr, hw] at hq <;> subst hq <;>
      simp [builtAfter, hr]
  subst hq8
  obtain ⟨q, h, hq⟩ := stage_ok _ _ _ _ _ _ h
  have hq9 : q = builtAfter w c e 9 := by
    cases hr : e.RocketStorage <;> simp [hr] at hq <;> subst hq <;> simp [builtAfter, hr]
  subst hq9
  obtain ⟨q, h, hq⟩ := stage_ok _ _ _ _ _ _ h
  have hq10 : q = builtAfter w c e 10 := by
    by_cases hr : e.LoadContracts.length + e.LoadAbis.length > 0 <;>
      cases hw : loadResources w <;> simp [hr, hw] at hq <;> subst hq <;> simp [builtAfter]
  subst hq10
  obtain ⟨q, h, hq⟩ := stage_ok _ _ _ _ _ _ h
  have hq11 : q = builtAfter w c e 11 := by
    cases hr : e.NodeContractAddress
    · simp [hr] at hq
      subst hq
      simp [builtAfter, hr]
    · cases hg : w.getContract with
      | error err => simp [hr, hg] at hq
      | ok a =>
        by_cases hz : a.bytes = List.replicate AddressLength 0
        · simp [hr, hg, hz] at hq
        · simp [hr, hg, hz] at hq
          subst hq
          simp [builtAfter, hr, hg]
  subst hq11
  obtain ⟨q, h, hq⟩ := stage_ok _ _ _ _ _ _ h
  have hq12 : q = builtAfter w c e 12 := by
    cases hr : e.NodeContract <;> cases hw : w.newContract <;> simp [hr, hw] at hq <;> subst hq <;>
      simp [builtAfter, hr]
  subst hq12
  obtain ⟨q, h, hq⟩ := stage_ok _ _ _ _ _ _ h
  have hq13 : q = builtAfter w c e 13 := by
    cases hr : e.Publisher <;> simp [hr] at hq <;> subst hq <;> simp [builtAfter, hr]
  subst hq13
  obtain ⟨q, h, hq⟩ := stage_ok _ _ _ _ _ _ h
  have hq14 : q = builtAfter w c e 14 := by
    cases hr : e.Beacon <;> simp [hr] at hq <;> subst hq <;> simp [builtAfter, hr]
  subst hq14
  obtain ⟨q, h, hq⟩ := stage_ok _ _ _ _ _ _ h
  have hq15 : q = builtAfter w c e 15 := by
    cases hr : e.Docker <;> cases hw : w.newDockerClient <;> simp [hr, hw] at hq <;> subst hq <;>
      simp [builtAfter, hr]
  subst hq15
  simpa using h.symm

theorem NewProvider_ok_no_failure (w : World) (c : Context) (opts : ProviderOpts)
    (P : Provider) (h : (NewProvider w c opts).result = .ok P) :
    ∀ s ∈ stageOrder.filter (processOptions opts).wants, stageError w s = none := by
  obtain ⟨_, herr⟩ := NewProvider_follows w c opts
  have hnone : (NewProvider w c opts).error = none :=
    (Run.error_eq_none_iff _).mpr ⟨P, h⟩
  rw [herr] at hnone
  exact (firstFailure_none_iff w _).mp hnone

theorem getContract_of_no_error (w : World)
    (h : stageError w .nodeContractAddress = none) :
    ∃ a, w.getContract = .ok a ∧ a.bytes ≠ List.replicate AddressLength 0 := by
  unfold stageError at h
  cases hg : w.getContract with
  | error err => simp [hg] at h
  | ok a =>
    by_cases hz : a.bytes = List.replicate AddressLength 0
    · simp [hg, hz] at h
    · exact ⟨a, rfl, hz⟩

theorem NewProvider_ok_getContract (w : World) (c : Context) (opts : ProviderOpts)
    (P : Provider) (h : (NewProvider w c opts).result = .ok P)
    (hNCA : (processOptions opts).NodeContractAddress = true) :
    ∃ a, w.getContract = .ok a ∧ a.bytes ≠ List.replicate AddressLength 0 ∧
      P.NodeContractAddress = some a := by
  have hmem : Stage.nodeContractAddress ∈ stageOrder.filter (processOptions opts).wants := by
    rw [List.mem_filter]
    exact ⟨by simp [stageOrder], hNCA⟩
  obtain ⟨a, hg, hz⟩ :=
    getContract_of_no_error w (NewProvider_ok_no_failure w c opts P h _ hmem)
  refine ⟨a, hg, hz, ?_⟩
  rw [NewProvider_bundle w c opts P h]
  simp [builtAfter, hNCA, hg]

theorem firstFailure_append_of_none (w : World) (l1 l2 : List Stage)
    (h : ∀ s ∈ l1, stageError w s = none) :
    firstFailure w (l1 ++ l2) = firstFailure w l2 ∧
    throughFirstFailure w (l1 ++ l2) = l1 ++ throughFirstFailure w l2 := by
  induction l1 with
  | nil => exact ⟨rfl, rfl⟩
  | cons s rest ih =>
    have hs : stageError w s = none := h s (List.mem_cons_self _ _)
    have ih2 := ih (fun t ht => h t (List.mem_cons_of_mem _ ht))
    simp [firstFailure, throughFirstFailure, hs, ih2.1, ih2.2]

theorem filter_split (f : Stage → Bool) (k : Nat) :
    stageOrder.filter f = (stageOrder.take k).filter f ++ (stageOrder.drop k).filter f := by
  rw [← List.filter_append, List.take_append_drop]

theorem entered_with (r : Run) (s : Stage) (I : Provider → Prop) (hs : s ∈ r.stages)
    (hI : ∀ x ∈ r.trace, I x.2) : ∃ p, (s, p) ∈ r.trace ∧ I p := by
  unfold Run.stages at hs
  obtain ⟨x, hx, hxs⟩ := List.mem_map.mp hs
  refine ⟨x.2, ?_, hI x hx⟩
  rw [← hxs]
  exact hx

theorem entered_of_earlier_ok (w : World) (c : Context) (opts : ProviderOpts) (k : Nat)
    (s : Stage) (hdrop : stageOrder.drop k = s :: stageOrder.drop (k + 1))
    (hwant : (processOptions opts).wants s = true)
    (hearlier : ∀ t ∈ (stageOrder.take k).filter (processOptions opts).wants,
      stageError w t = none) :
    s ∈ (NewProvider w c opts).stages := by
  obtain ⟨hst, _⟩ := NewProvider_follows w c opts
  rw [hst, filter_split _ k, (firstFailure_append_of_none w _ _ hearlier).2, hdrop,
    List.filter_cons, hwant]
  apply List.mem_append_right
  simp only [if_true, throughFirstFailure]
  split <;> simp

/-- C11. Node registration check: for every world, context and request with the node
contract address in the expanded set and no failing stage among the ten stages before
it, `NewProvider` returns the error `Error checking node registration: <err>` when the
call `getContract` returns the error `err`, returns the error `Node is not registered`
when the call returns the all-zero address, and otherwise every provider it returns
holds exactly the returned address. In every world and for every request, an address
held by a returned provider is the one `getContract` returned and is not all-zero. The
stage is entered; when the call returns an address that is not all-zero the stage does
not fail: an error of `NewProvider` is then that of the first failing later stage, and
when no later stage fails `NewProvider` returns a provider holding the returned address. -/
theorem NewProvider_node_registration (w : World) (c : Context) (opts : ProviderOpts)
    (hNCA : (processOptions opts).NodeContractAddress = true)
    (hearlier : ∀ s ∈ (stageOrder.take 10).filter (processOptions opts).wants,
      stageError w s = none) :
    (∀ err, w.getContract = .error err →
      (NewProvider w c opts).result = .error ("Error checking node registration: " ++ err)) ∧
    (∀ a, w.getContract = .ok a → a.bytes = List.replicate AddressLength 0 →
      (NewProvider w c opts).result = .error
        "Node is not registered with Rocket Pool, please register with `rocketpool node register`") ∧
    (∀ a, w.getContract = .ok a → a.bytes ≠ List.replicate AddressLength 0 →
      ∀ P, (NewProvider w c opts).result = .ok P → P.NodeContractAddress = some a) ∧
    (∀ (w1 : World) (c1 : Context) (o1 : ProviderOpts) (P : Provider) (a : Address),
      (NewProvider w1 c1 o1).result = .ok P → P.NodeContractAddress = some a →
        w1.getContract = .ok a ∧ a.bytes ≠ List.replicate AddressLength 0) ∧
    Stage.nodeContractAddress ∈ (NewProvider w c opts).stages ∧
    (∀ a, w.getContract = .ok a → a.bytes ≠ List.replicate AddressLength 0 →
      (NewProvider w c opts).error =
        firstFailure w ((stageOrder.drop 11).filter (processOptions opts).wants) ∧
      ((∀ s ∈ (stageOrder.drop 11).filter (processOptions opts).wants,
          stageError w s = none) →
        ∃ P, (NewProvider w c opts).result = .ok P ∧ P.NodeContractAddress = some a)) := by
  have hentered := entered_of_earlier_ok w c opts 10 .nodeContractAddress rfl hNCA hearlier
  obtain ⟨_, herr⟩ := NewProvider_follows w c opts
  rw [filter_split _ 10, (firstFailure_append_of_none w _ _ hearlier).1] at herr
  refine ⟨?_, ?_, ?_, ?_, hentered, ?_⟩
  rotate_left 4
  · intro a hg hz
    have hpass : stageError w .nodeContractAddress = none := by
      simp [stageError, hg, hz]
    have herr2 : (NewProvider w c opts).error =
        firstFailure w ((stageOrder.drop 11).filter (processOptions opts).wants) :=
      herr.trans (through_cons_pass w (processOptions opts).wants .nodeContractAddress
        (stageOrder.drop 11) hNCA hpass).2
    refine ⟨herr2, ?_⟩
    intro hlater
    have hnone : (NewProvider w c opts).error = none :=
      herr2.trans ((firstFailure_none_iff w _).mpr hlater)
    obtain ⟨P, hP⟩ := (Run.error_eq_none_iff _).mp hnone
    obtain ⟨b, hb, _, hPb⟩ := NewProvider_ok_getContract w c opts P hP hNCA
    rw [hg] at hb
    cases hb
    exact ⟨P, hP, hPb⟩
  · intro err hg
    have hfail : stageError w .nodeContractAddress =
        some ("Error checking node registration: " ++ err) := by
      simp [stageError, hg]
    rw [← Run.error_eq_some_iff, herr]
    exact (through_cons_fail w (processOptions opts).wants .nodeContractAddress
      (stageOrder.drop 11) _ hNCA hfail).2
  · intro a hg hz
    have hfail : stageError w .nodeContractAddress = some
        "Node is not registered with Rocket Pool, please register with `rocketpool node register`" := by
      simp [stageError, hg, hz]
    rw [← Run.error_eq_some_iff, herr]
    exact (through_cons_fail w (processOptions opts).wants .nodeContractAddress
      (stageOrder.drop 11) _ hNCA hfail).2
  · intro a hg _ P hP
    obtain ⟨b, hb, _, hPb⟩ := NewProvider_ok_getContract w c opts P hP hNCA
    rw [hg] at hb
    cases hb
    exact hPb
  · intro w1 c1 o1 P a hP ha
    cases hflag : (processOptions o1).NodeContractAddress with
    | false =>
      rw [NewProvider_bundle w1 c1 o1 P hP] at ha
      simp [builtAfter, hflag] at ha
    | true =>
      obtain ⟨b, hb, hz, hPb⟩ := NewProvider_ok_getContract w1 c1 o1 P hP hflag
      rw [hPb] at ha
      cases ha
      exact ⟨hb, hz⟩

/-- C11 at concrete inputs: the node contract address alone is requested; in a world
where `getContract` returns the all-zero address the result is the `Node is not
registered` error, in a world where the call fails the result wraps its error, and in a
world where the call returns the address `0x00..01` a provider holding that address is
returned. -/
theorem NewProvider_node_registration_witness :
    (processOptions { noOpts with NodeContractAddress := true }).NodeContractAddress = true ∧
    (NewProvider unregisteredWorld sampleContext
        { noOpts with NodeContractAddress := true }).result = .error
      "Node is not registered with Rocket Pool, please register with `rocketpool node register`" ∧
    (NewProvider unreachableWorld sampleContext
        { noOpts with NodeContractAddress := true }).result =
      .error "Error checking node registration: connection refused" ∧
    (∃ P, (NewProvider readyWorld sampleContext
        { noOpts with NodeContractAddress := true }).result = .ok P ∧
      P.NodeContractAddress = some { bytes := List.replicate 19 0 ++ [1] }) :=
  ⟨rfl,
    (NewProvider_node_registration unregisteredWorld sampleContext
      { noOpts with NodeContractAddress := true } rfl (by decide)).2.1 _ rfl rfl,
    (NewProvider_node_registration unreachableWorld sampleContext
      { noOpts with NodeContractAddress := true } rfl (by decide)).1 _ rfl,
    ((NewProvider_node_registration readyWorld sampleContext
      { noOpts with NodeContractAddress := true } rfl (by decide)).2.2.2.2.2 _ rfl
        (by decide)).2 (by decide)⟩

theorem isSome_ite_some {α : Type} (b : Bool) (x : α) :
    (if b = true then some x else none).isSome = b := by
  cases b <;> rfl

/-- C12. Service bundle shape: for every world, context and request on which
`NewProvider` returns a provider, each of the eleven fields of that provider is non-nil
exactly when its flag is set in the expanded option set (a constructor that succeeds
returns a handle). -/
theorem NewProvider_bundle_shape (w : World) (c : Context) (opts : ProviderOpts)
    (P : Provider) (h : (NewProvider w c opts).result = .ok P) :
    P.DB.isSome = (processOptions opts).DB ∧
    P.PM.isSome = (processOptions opts).PM ∧
    P.AM.isSome = (processOptions opts).AM ∧
    P.KM.isSome = (processOptions opts).KM ∧
    P.Client.isSome = (processOptions opts).Client ∧
    P.CM.isSome = (processOptions opts).CM ∧
    P.NodeContractAddress.isSome = (processOptions opts).NodeContractAddress ∧
    P.NodeContract.isSome = (processOptions opts).NodeContract ∧
    P.Publisher.isSome = (processOptions opts).Publisher ∧
    P.Beacon.isSome = (processOptions opts).Beacon ∧
    P.Docker.isSome = (processOptions opts).Docker := by
  have hP := NewProvider_bundle w c opts P h
  have hnca : P.NodeContractAddress.isSome = (processOptions opts).NodeContractAddress := by
    cases hflag : (processOptions opts).NodeContractAddress with
    | false =>
      rw [hP]
      simp [builtAfter, hflag]
    | true =>
      obtain ⟨a, _, _, ha⟩ := NewProvider_ok_getContract w c opts P h hflag
      rw [ha]
      rfl
  refine ⟨?_, ?_, ?_, ?_, ?_, ?_, hnca, ?_, ?_, ?_, ?_⟩ <;>
    (rw [hP]; simp only [builtAfter, Nat.reduceLeDiff, true_and]; exact isSome_ite_some _ _)

/-- C12 at a concrete input: the database, the node contract and the beacon client are
requested in a world where every stage succeeds. -/
theorem NewProvider_bundle_shape_witness :
    ∃ P, (NewProvider readyWorld sampleContext
        { noOpts with DB := true, NodeContract := true, Beacon := true }).result = .ok P ∧
      P.DB.isSome = true ∧ P.PM.isSome = true ∧ P.AM.isSome = true ∧ P.KM.isSome = false ∧
      P.Client.isSome = true ∧ P.CM.isSome = true ∧ P.NodeContractAddress.isSome = true ∧
      P.NodeContract.isSome = true ∧ P.Publisher.isSome = true ∧ P.Beacon.isSome = true ∧
      P.Docker.isSome = false :=
  ⟨_, rfl, NewProvider_bundle_shape readyWorld sampleContext
    { noOpts with DB := true, NodeContract := true, Beacon := true } _ rfl⟩

theorem stage_trace_inv (I : Provider → Prop) (s : Stage) (requested : Bool)
    (body : Provider → Except String Provider) (rest : Provider → Run)
    (hbody : requested = true → ∀ p q, I p → body p = .ok q → I q)
    (hrest : ∀ q, I q → ∀ x ∈ (rest q).trace, I x.2) (p : Provider) (hp : I p) :
    ∀ x ∈ (stage s requested body rest p).trace, I x.2 := by
  cases requested with
  | false => simpa [stage] using hrest p hp
  | true =>
    cases hb : body p with
    | error err =>
      intro x hx
      simp only [stage, hb, if_true, List.mem_singleton] at hx
      subst hx
      exact hp
    | ok q =>
      intro x hx
      simp only [stage, hb, if_true, List.mem_cons] at hx
      rcases hx with rfl | hx
      · exact hp
      · exact hrest q (hbody rfl p q hp hb) x hx

theorem NewProvider_trace_no_client (w : World) (c : Context) (opts : ProviderOpts)
    (hCl : (processOptions opts).Client = false) :
    ∀ x ∈ (NewProvider w c opts).trace, x.2.Client = none := by
  unfold NewProvider
  dsimp only
  generalize processOptions opts = e at hCl ⊢
  have hq : (fun p : Provider => p.Client = none) {} := rfl
  refine stage_trace_inv (fun p => p.Client = none) _ _ _ _ ?_ (fun q hq => ?_) _ hq
  · intro _ p q hp hb
    cases hb
    exact hp
  refine stage_trace_inv (fun p => p.Client = none) _ _ _ _ ?_ (fun q hq => ?_) _ hq
  · intro _ p q hp hb
    split at hb <;> cases hb
    exact hp
  refine stage_trace_inv (fun p => p.Client = none) _ _ _ _ ?_ (fun q hq => ?_) _ hq
  · intro _ p q hp hb
    split at hb <;> cases hb
    exact hp
  refine stage_trace_inv (fun p => p.Client = none) _ _ _ _ ?_ (fun q hq => ?_) _ hq
  · intro _ p q hp hb
    cases hb
    exact hp
  refine stage_trace_inv (fun p => p.Client = none) _ _ _ _ ?_ (fun q hq => ?_) _ hq
  · intro hreq
    rw [hCl] at hreq
    cases hreq
  refine stage_trace_inv (fun p => p.Client = none) _ _ _ _ ?_ (fun q hq => ?_) _ hq
  · intro _ p q hp hb
    cases hb
    exact hp
  refine stage_trace_inv (fun p => p.Client = none) _ _ _ _ ?_ (fun q hq => ?_) _ hq
  · intro _ p q hp hb
    split at hb <;> cases hb
    exact hp
  refine stage_trace_inv (fun p => p.Client = none) _ _ _ _ ?_ (fun q hq => ?_) _ hq
  · intro _ p q hp hb
    split at hb <;> cases hb
    exact hp
  refine stage_trace_inv (fun p => p.Client = none) _ _ _ _ ?_ (fun q hq => ?_) _ hq
  · intro _ p q hp hb
    cases hb
    exact hp
  refine stage_trace_inv (fun p => p.Client = none) _ _ _ _ ?_ (fun q hq => ?_) _ hq
  · intro _ p q hp hb
    split at hb <;> cases hb
    exact hp
  refine stage_trace_inv (fun p => p.Client = none) _ _ _ _ ?_ (fun q hq => ?_) _ hq
  · intro _ p q hp hb
    split at hb
    · cases hb
    · split at hb <;> cases hb
      exact hp
  refine stage_trace_inv (fun p => p.Client = none) _ _ _ _ ?_ (fun q hq => ?_) _ hq
  · intro _ p q hp hb
    split at hb <;> cases hb
    exact hp
  refine stage_trace_inv (fun p => p.Client = none) _ _ _ _ ?_ (fun q hq => ?_) _ hq
  · intro _ p q hp hb
    cases hb
    exact hp
  refine stage_trace_inv (fun p => p.Client = none) _ _ _ _ ?_ (fun q hq => ?_) _ hq
  · intro _ p q hp hb
    cases hb
    exact hp
  refine stage_trace_inv (fun p => p.Client = none) _ _ _ _ ?_ (fun q hq => ?_) _ hq
  · intro _ p q hp hb
    split at hb <;> cases hb
    exact hp
  intro x hx
  cases hx

/-- C14. Wait stages without an RPC client: for every world, context and request that
sets none of Client, ClientSync, CM, NodeContractAddress, NodeContract and has both load
lists empty, the expanded set does not contain the RPC client, and every stage that is
entered finds the field `Client` of the provider nil. When the request sets
ClientConnection and no stage before the connection wait fails, the connection wait is
entered, with a nil `Client`; when it sets RocketStorage and no stage before the
storage-presence wait fails, that wait is entered, with a nil `Client`. -/
theorem wait_stages_without_client (w : World) (c : Context) (opts : ProviderOpts)
    (hCl : opts.Client = false) (hCS : opts.ClientSync = false) (hCM : opts.CM = false)
    (hNCA : opts.NodeContractAddress = false) (hNC : opts.NodeContract = false)
    (hLC : opts.LoadContracts = []) (hLA : opts.LoadAbis = []) :
    (processOptions opts).Client = false ∧
    (∀ x ∈ (NewProvider w c opts).trace, x.2.Client = none) ∧
    (opts.ClientConnection = true →
      (∀ t ∈ (stageOrder.take 5).filter (processOptions opts).wants, stageError w t = none) →
      ∃ p, (Stage.waitConnection, p) ∈ (NewProvider w c opts).trace ∧ p.Client = none) ∧
    (opts.RocketStorage = true →
      (∀ t ∈ (stageOrder.take 8).filter (processOptions opts).wants, stageError w t = none) →
      ∃ p, (Stage.waitRocketStorage, p) ∈ (NewProvider w c opts).trace ∧ p.Client = none) := by
  have hclient : (processOptions opts).Client = false := by
    rw [processOptions_eq]
    simp [hCl, hCS, hCM, hNCA, hNC, hLC, hLA]
  have htrace := NewProvider_trace_no_client w c opts hclient
  refine ⟨hclient, htrace, ?_, ?_⟩
  · intro hCC hearlier
    have hwant : (processOptions opts).wants .waitConnection = true := by
      rw [processOptions_eq]
      exact hCC
    exact entered_with _ _ (fun p => p.Client = none)
      (entered_of_earlier_ok w c opts 5 _ rfl hwant hearlier) htrace
  · intro hRS hearlier
    have hwant : (processOptions opts).wants .waitRocketStorage = true := by
      rw [processOptions_eq]
      exact hRS
    exact entered_with _ _ (fun p => p.Client = none)
      (entered_of_earlier_ok w c opts 8 _ rfl hwant hearlier) htrace

/-- C14 at a concrete input: only ClientConnection and RocketStorage are requested; the
two wait stages are the only stages entered, each with the provider still empty. -/
theorem wait_stages_without_client_witness :
    (NewProvider freshWorld sampleContext
        { noOpts with ClientConnection := true, RocketStorage := true }).trace =
      [(Stage.waitConnection, {}), (Stage.waitRocketStorage, {})] ∧
    (processOptions { noOpts with ClientConnection := true, RocketStorage := true }).Client =
      false ∧
    (∃ p, (Stage.waitConnection, p) ∈ (NewProvider freshWorld sampleContext
        { noOpts with ClientConnection := true, RocketStorage := true }).trace ∧
      p.Client = none) ∧
    (∃ p, (Stage.waitRocketStorage, p) ∈ (NewProvider freshWorld sampleContext
        { noOpts with ClientConnection := true, RocketStorage := true }).trace ∧
      p.Client = none) :=
  ⟨rfl,
    (wait_stages_without_client freshWorld sampleContext
      { noOpts with ClientConnection := true, RocketStorage := true }
      rfl rfl rfl rfl rfl rfl rfl).1,
    (wait_stages_without_client freshWorld sampleContext
      { noOpts with ClientConnection := true, RocketStorage := true }
      rfl rfl rfl rfl rfl rfl rfl).2.2.1 rfl (by decide),
    (wait_stages_without_client freshWorld sampleContext
      { noOpts with ClientConnection := true, RocketStorage := true }
      rfl rfl rfl rfl rfl rfl rfl).2.2.2 rfl (by decide)⟩

/-- The receive loop of the loading block, as a function of the two signals in the order
they are received: it gives no error exactly when both are success signals, and an error
signal received first is the result whatever the second signal is. -/
theorem awaitLoading_first_error (first second : Option String) :
    (awaitLoading first second = none ↔ first = none ∧ second = none) ∧
    (∀ err, first = some err → awaitLoading first second = some err) ∧
    (∀ err, first = none → second = some err → awaitLoading first second = some err) := by
  cases first <;> cases second <;> simp [awaitLoading]

theorem mem_of_mem_throughFirstFailure (w : World) (plan : List Stage) (s : Stage)
    (h : s ∈ throughFirstFailure w plan) : s ∈ plan := by
  obtain ⟨k, hk⟩ := throughFirstFailure_take w plan
  rw [hk] at h
  exact List.mem_of_mem_take h

theorem wants_loadResources_iff (opts : ProviderOpts) :
    (processOptions opts).wants .loadResources = true ↔
      (opts.LoadContracts ≠ [] ∨ opts.LoadAbis ≠ []) := by
  rw [processOptions_eq]
  simp only [ProviderOpts.wants]
  cases opts.LoadContracts <;> cases opts.LoadAbis <;> simp

/-- C13. Concurrent fetch joiner, with the order in which the two completion signals are
received given by the world: for every world, context and request, the loading block
gives no error exactly when the contract load and the ABI load both succeed; a failure
received first is the result whatever the other task signals, so when only one load
fails its failure is the result in either order of arrival, and when both fail the
result is the failure received first. `NewProvider` enters the loading stage only when a
load list is not empty; it then enters it whenever no earlier stage fails, and a failure
of the joiner is the error `NewProvider` returns, the loading stage being the last stage
entered. Scenario: the contract load succeeds, the ABI load fails and is received first;
the result is the ABI failure. -/
theorem NewProvider_loading_joiner (w : World) (c : Context) (opts : ProviderOpts) :
    (loadResources w = none ↔ w.loadContracts = none ∧ w.loadABIs = none) ∧
    (∀ err second, awaitLoading (some err) second = some err) ∧
    (∀ err, w.abiSignalFirst = true → w.loadABIs = some err → loadResources w = some err) ∧
    (∀ err, w.abiSignalFirst = false → w.loadContracts = some err →
      loadResources w = some err) ∧
    (∀ err, w.loadContracts = none → w.loadABIs = some err → loadResources w = some err) ∧
    (∀ err, w.loadABIs = none → w.loadContracts = some err → loadResources w = some err) ∧
    (Stage.loadResources ∈ (NewProvider w c opts).stages →
      (opts.LoadContracts ≠ [] ∨ opts.LoadAbis ≠ [])) ∧
    ((opts.LoadContracts ≠ [] ∨ opts.LoadAbis ≠ []) →
      (∀ t ∈ (stageOrder.take 9).filter (processOptions opts).wants, stageError w t = none) →
      Stage.loadResources ∈ (NewProvider w c opts).stages ∧
      (∀ err, loadResources w = some err →
        (NewProvider w c opts).result = .error err ∧
        (NewProvider w c opts).stages.getLast? = some Stage.loadResources) ∧
      (loadResources w = none →
        (NewProvider w c opts).error =
          firstFailure w ((stageOrder.drop 10).filter (processOptions opts).wants))) ∧
    (NewProvider abiFailsWorld sampleContext loadRequest).result = .error "ABI load failed" ∧
    (NewProvider abiFailsWorld sampleContext loadRequest).stages =
      [Stage.ethClient, Stage.contractManager, Stage.loadResources] := by
  obtain ⟨hst, herr⟩ := NewProvider_follows w c opts
  refine ⟨?_, ?_, ?_, ?_, ?_, ?_, ?_, ?_, rfl, rfl⟩
  · rw [← stageError_loadResources]
    exact stageError_loadResources_none w
  · intro err second
    rfl
  · intro err h1 h2
    simp [loadResources, awaitLoading, h1, h2]
  · intro err h1 h2
    simp [loadResources, awaitLoading, h1, h2]
  · intro err h1 h2
    cases hb : w.abiSignalFirst <;> simp [loadResources, awaitLoading, h1, h2, hb]
  · intro err h1 h2
    cases hb : w.abiSignalFirst <;> simp [loadResources, awaitLoading, h1, h2, hb]
  · intro h
    rw [hst] at h
    have hmem := mem_of_mem_throughFirstFailure w _ _ h
    exact (wants_loadResources_iff opts).mp (List.mem_filter.mp hmem).2
  · intro hne hearlier
    have hwant := (wants_loadResources_iff opts).mpr hne
    refine ⟨entered_of_earlier_ok w c opts 9 .loadResources rfl hwant hearlier, ?_, ?_⟩
    · intro err hload
      have hfail : stageError w .loadResources = some err :=
        (stageError_loadResources w).trans hload
      have hcut := through_cons_fail w (processOptions opts).wants .loadResources
        (stageOrder.drop 10) err hwant hfail
      have hsplit := firstFailure_append_of_none w
        ((stageOrder.take 9).filter (processOptions opts).wants)
        ((stageOrder.drop 9).filter (processOptions opts).wants) hearlier
      rw [filter_split _ 9] at hst herr
      constructor
      · rw [← Run.error_eq_some_iff, herr, hsplit.1]
        exact hcut.2
      · rw [hst, hsplit.2]
        have h9 : throughFirstFailure w ((stageOrder.drop 9).filter (processOptions opts).wants)
            = [Stage.loadResources] := hcut.1
        rw [h9]
        simp
    · intro hload
      have hpass : stageError w .loadResources = none :=
        (stageError_loadResources w).trans hload
      have hcut := through_cons_pass w (processOptions opts).wants .loadResources
        (stageOrder.drop 10) hwant hpass
      have hsplit := firstFailure_append_of_none w
        ((stageOrder.take 9).filter (processOptions opts).wants)
        ((stageOrder.drop 9).filter (processOptions opts).wants) hearlier
      rw [filter_split _ 9] at herr
      rw [herr, hsplit.1]
      exact hcut.2

end Smartnode
